import Mathlib

/-!
Verification development for the CNCxSOHO import-tracker exporters.

The repository's report-generation core lives in `server/excel_export.py`
(template-driven workbook generation: merge-aware cell writes, row cloning
with style/merge replication, aggregation, formatting scrub) and
`server/excel_beyanname_export.py` (static-template export with a
country-code mapping).  This file is a shallow embedding of those two
programs over an explicit worksheet state, together with theorems settling
the spec's claims about them.

Modelling conventions:
* Python/JSON leaf values are `JVal` (null, bool, number, string); numbers
  are embedded as exact rationals `Rat` (the Python code only adds,
  subtracts and multiplies floats, and the claims' tolerance admits the
  exact values).
* A worksheet `Ws` carries cell values, fills, borders, merged regions,
  conditional-formatting rules and the current maximum materialized row.
  Other style attributes the Python code copies (font, number format,
  protection, alignment) and row heights have no bearing on any claim and
  are not part of the state; the row-clone step copies the modelled
  attributes exactly as the source copies each attribute.
* Cell references such as `'B2'` or `f'A{row}'` are represented directly
  by `(row, column)` pairs, the tuple `openpyxl.utils.coordinate_to_tuple`
  produces from them (both rows and columns 1-based).
* Fallible Python operations (float()/int() coercions, `in` on a
  non-string, `.upper()` on a non-string) are embedded in `Except`:
  an uncaught Python exception is `Except.error`, so `Except.error`
  means the generation aborts and no output artifact is produced.
* Per-cell loops over a rectangular region (the formatting scrub, the
  banding fill) act pointwise and independently on each cell, and are
  embedded as a single pointwise update of the region.
-/

/-- A JSON/Python leaf value as it appears in the invocation payload and in
worksheet cells.  Nested objects (`hs_code_data`, `product_data`) are typed
separately on the item record. -/
inductive JVal where
  | jnull : JVal
  | jbool : Bool → JVal
  | jnum : Rat → JVal
  | jstr : String → JVal
deriving DecidableEq, Repr

/-- Python truthiness of a leaf value (`if x:`): `None`, `False`, `0` and
`''` are falsy, everything else truthy. -/
def truthy : JVal → Bool
  | .jnull => false
  | .jbool b => b
  | .jnum q => decide (q ≠ 0)
  | .jstr s => decide (s ≠ "")

/-- Truthiness of an optional cell content: an absent value (`None`) is falsy. -/
def truthyOpt : Option JVal → Bool
  | none => false
  | some v => truthy v

/-- Numeric value of a digit list (most significant first). -/
def digitsVal (l : List Char) : Nat :=
  l.foldl (fun a c => a * 10 + (c.toNat - '0'.toNat)) 0

/-- Unsigned decimal literal accepted by Python `float()`:
`digits`, `digits.digits`, `digits.` or `.digits`.
(Exponents, `inf`/`nan` and underscores are accepted by Python but never
occur in this pipeline's data; they are outside the modelled subset, which
only errs on the side of reporting a conversion failure.) -/
def parseUF (l : List Char) : Option Rat :=
  let ip := l.takeWhile Char.isDigit
  let rest := l.dropWhile Char.isDigit
  match rest with
  | [] => if ip.isEmpty then none else some ((digitsVal ip : Nat) : Rat)
  | '.' :: frac =>
      if frac.all Char.isDigit && !(ip.isEmpty && frac.isEmpty) then
        some (((digitsVal ip : Nat) : Rat) +
          ((digitsVal frac : Nat) : Rat) / ((10 : Rat) ^ frac.length))
      else none
  | _ => none

/-- Python `float(s)` on a string: optional sign around an unsigned decimal
literal, surrounding whitespace stripped. -/
def parseFloatStr (s : String) : Option Rat :=
  match s.trim.toList with
  | '-' :: rest => (parseUF rest).map Neg.neg
  | '+' :: rest => parseUF rest
  | l => parseUF l

/-- Python `int(s)` on a string: optional sign and digits only
(`int("5.5")` raises), surrounding whitespace stripped. -/
def parseIntStr (s : String) : Option Int :=
  match s.trim.toList with
  | '-' :: rest =>
      if rest.isEmpty || !rest.all Char.isDigit then none
      else some (-(digitsVal rest : Int))
  | '+' :: rest =>
      if rest.isEmpty || !rest.all Char.isDigit then none
      else some ((digitsVal rest : Int))
  | l =>
      if l.isEmpty || !l.all Char.isDigit then none
      else some ((digitsVal l : Int))

/-- Python `float(v)` on a payload value: numbers pass through, booleans map
to 0/1, strings are parsed, `None` raises (`none` here). -/
def pyFloat : JVal → Option Rat
  | .jnull => none
  | .jbool b => some (if b then 1 else 0)
  | .jnum q => some q
  | .jstr s => parseFloatStr s

/-- Rational truncation toward zero, as Python `int()` applied to a float. -/
def ratTrunc (q : Rat) : Int :=
  q.num.tdiv (q.den : Int)

/-- Python `int(v)` on a payload value: floats truncate toward zero,
booleans map to 0/1, strings must be integer literals, `None` raises. -/
def pyInt : JVal → Option Int
  | .jnull => none
  | .jbool b => some (if b then 1 else 0)
  | .jnum q => some (ratTrunc q)
  | .jstr s => parseIntStr s

/-- Coercion `float(item.get(key, 0))`: an absent field defaults to `0`
(which converts without error); a present field that `float()` rejects is a
raised exception, i.e. `Except.error`. -/
def getFloat (v : Option JVal) : Except String Rat :=
  match v with
  | none => .ok 0
  | some j =>
      match pyFloat j with
      | some q => .ok q
      | none => .error "could not convert value to float"

/-- Coercion `int(item.get(key, 0))`, analogous to `getFloat`. -/
def getInt (v : Option JVal) : Except String Int :=
  match v with
  | none => .ok 0
  | some j =>
      match pyInt j with
      | some q => .ok q
      | none => .error "could not convert value to int"

/-- Field access `item.get(key, default)` for raw (uncoerced) writes. -/
def jget (v : Option JVal) (d : JVal) : JVal := v.getD d

/-- List-of-chars test: `needle` occurs at the head of `hay`. -/
def startsWithL : List Char → List Char → Bool
  | [], _ => true
  | _ :: _, [] => false
  | a :: as, b :: bs => a == b && startsWithL as bs

/-- List-of-chars substring test. -/
def containsSubL (needle : List Char) : List Char → Bool
  | [] => needle.isEmpty
  | c :: rest => startsWithL needle (c :: rest) || containsSubL needle rest

/-- Python `needle in hay` for strings: substring containment. -/
def containsSub (hay needle : String) : Bool :=
  containsSubL needle.toList hay.toList

/-- Evaluation of `'NEEDLE' in requirements` where
`requirements = item.get('requirements', '')`: raises `TypeError` when the
present value is not a string. -/
def reqString (v : Option JVal) : Except String String :=
  match v with
  | none => .ok ""
  | some (.jstr s) => .ok s
  | some _ => .error "argument of type is not iterable"

/-- A merged-cell region, as `openpyxl.worksheet.cell_range.CellRange`:
an inclusive rectangle of 1-based rows and columns. -/
structure CellRange where
  min_col : Nat
  min_row : Nat
  max_col : Nat
  max_row : Nat
deriving DecidableEq, Repr

/-- Membership of coordinate `(r, c)` in a region (`cell_ref in merged_range`). -/
def CellRange.coversB (m : CellRange) (r c : Nat) : Bool :=
  decide (m.min_row ≤ r ∧ r ≤ m.max_row ∧ m.min_col ≤ c ∧ c ≤ m.max_col)

/-- A cell fill.  `noFill` is `PatternFill(fill_type=None)`; any other fill
is summarized by a descriptor string (the banding fills use
`solid` + ARGB color). -/
inductive Fill where
  | noFill : Fill
  | fillOf : String → Fill
deriving DecidableEq, Repr

/-- A cell border.  `empty` is the default `Border()` every scrubbed cell is
reset to; any other border is summarized by a descriptor string. -/
inductive Bord where
  | empty : Bord
  | bordOf : String → Bord
deriving DecidableEq, Repr

/-- A conditional-formatting rule attached to a rectangular range
(`Rule(type='expression', dxf=white-border, stopIfTrue=False,
formula=['TRUE'])` is `alwaysTrue = true`). -/
structure CFRule where
  rmin : Nat
  rmax : Nat
  cmin : Nat
  cmax : Nat
  alwaysTrue : Bool
deriving DecidableEq, Repr

/-- The worksheet state: cell values, fills, borders, merged regions,
conditional-formatting rules, and the maximum materialized row
(`ws.max_row`).  The template workbook, an `.xlsx` asset that is not part
of the repository sources, enters the model as an arbitrary initial `Ws`
(taken after the snapshot loader has replaced formula cells by their cached
values, lines 29-39 of `excel_export.py`). -/
structure Ws where
  cells : Nat × Nat → Option JVal
  fills : Nat × Nat → Fill
  borders : Nat × Nat → Bord
  merges : List CellRange
  cfRules : List CFRule
  maxRow : Nat

/-- Direct cell-value assignment `ws.cell(r, c).value = v` (materializes the
cell, so `max_row` grows to at least `r`). -/
def writeCell (ws : Ws) (r c : Nat) (v : JVal) : Ws :=
  { ws with
    cells := fun p => if p = (r, c) then some v else ws.cells p
    maxRow := max ws.maxRow r }

/-- First registered merged region containing `(r, c)`
(the `for merged_range in ws.merged_cells.ranges` scan). -/
def mergeContaining (ms : List CellRange) (r c : Nat) : Option CellRange :=
  ms.find? (fun m => m.coversB r c)

/-- Target `(r, c)` is a non-anchor member of some merged region; exactly
then `ws[ref]` is a `MergedCell` and assigning its `value` raises
`AttributeError`. -/
def isMergedNonAnchor (ms : List CellRange) (r c : Nat) : Bool :=
  ms.any (fun m => m.coversB r c && !(decide (m.min_row = r ∧ m.min_col = c)))

/-- The guarded direct write `ws[cell_ref].value = value` of
`set_cell_value`'s fallback path: raises (errors) iff the target is a
non-anchor merged cell. -/
def directWrite (ws : Ws) (r c : Nat) (v : JVal) : Except Unit Ws :=
  if isMergedNonAnchor ws.merges r c then .error () else .ok (writeCell ws r c v)

/-- `set_cell_value(ws, cell_ref, value)` (excel_export.py lines 10-24):
if the target lies in a currently-registered merged region the value is
written to that region's anchor (its top-left `start_cell`); otherwise the
direct write is attempted, with a raised `AttributeError` swallowed
(`except AttributeError: pass`). -/
def set_cell_value (ws : Ws) (r c : Nat) (v : JVal) : Ws :=
  match mergeContaining ws.merges r c with
  | some m => writeCell ws m.min_row m.min_col v
  | none =>
      match directWrite ws r c v with
      | .ok ws' => ws'
      | .error _ => ws

/-- The coordinate a `set_cell_value` at `(r, c)` actually writes to:
the containing region's anchor, or `(r, c)` itself. -/
def anchorOf (ms : List CellRange) (r c : Nat) : Nat × Nat :=
  match mergeContaining ms r c with
  | some m => (m.min_row, m.min_col)
  | none => (r, c)

/-- The `calculation` object of the payload (invoice-level header context).
Every field is an optional raw JSON value, matching `calc.get(...)`. -/
structure Calc where
  invoice_no : Option JVal := none
  invoice_date : Option JVal := none
  total_value : Option JVal := none
  total_quantity : Option JVal := none
  transport_cost : Option JVal := none
  insurance_cost : Option JVal := none
  storage_cost : Option JVal := none
  currency_rate : Option JVal := none
  reference : Option JVal := none

/-- The nested `hs_code_data` object of an item. -/
structure HsCodeData where
  customs_tax_percent : Option JVal := none
  additional_customs_tax_percent : Option JVal := none
  kkdf_percent : Option JVal := none
  vat_percent : Option JVal := none
  unit : Option JVal := none
  description_tr : Option JVal := none

/-- The nested `product_data` object of an item. -/
structure ProductData where
  brand : Option JVal := none
  item_description : Option JVal := none

/-- A line item of the payload.  `hs_code_data = none` covers every case the
Python guard `if hs_code_data:` treats as falsy (key absent, `None`, or an
empty dict); likewise `product_data`. -/
structure Item where
  hts_code : Option JVal := none
  country_of_origin : Option JVal := none
  style : Option JVal := none
  color : Option JVal := none
  category : Option JVal := none
  description : Option JVal := none
  fabric_content : Option JVal := none
  cost : Option JVal := none
  unit_count : Option JVal := none
  total_value : Option JVal := none
  tr_hs_code : Option JVal := none
  requirements : Option JVal := none
  transport_share : Option JVal := none
  insurance_share : Option JVal := none
  storage_share : Option JVal := none
  customs_tax : Option JVal := none
  additional_customs_tax : Option JVal := none
  kkdf : Option JVal := none
  vat : Option JVal := none
  total_tax_usd : Option JVal := none
  total_tax_tl : Option JVal := none
  vat_base : Option JVal := none
  hs_code_data : Option HsCodeData := none
  product_data : Option ProductData := none

/-- The whole invocation payload of `export_excel` (the required keys
`calculation` and `items`). -/
structure ExcelData where
  calculation : Calc
  items : List Item

/-- Left-accumulating tail of `sum(float(item.get(key, 0)) for item in items)`. -/
def sumFieldAux (f : Item → Option JVal) (acc : Rat) : List Item → Except String Rat
  | [] => .ok acc
  | it :: rest => do
      let x ← getFloat (f it)
      sumFieldAux f (acc + x) rest

/-- `sum(float(item.get(key, 0)) for item in items)`: a left fold in which
any uncoercible present field raises. -/
def sumField (items : List Item) (f : Item → Option JVal) : Except String Rat :=
  sumFieldAux f 0 items

/-- Reformatting of `calc.get('invoice_date', '')` (lines 48-59): a date-only
ISO string `YYYY-MM-DD` becomes `DD/MM/YYYY`; a falsy value becomes `''`;
anything else passes through verbatim (the `except` branch).  The model
parses only the plain date form; richer ISO timestamps that CPython's
`datetime.fromisoformat` would also accept fall into the pass-through
branch, which no claim observes. -/
def formatIsoDate (s : String) : Option String :=
  match s.toList with
  | [y1, y2, y3, y4, '-', m1, m2, '-', d1, d2] =>
      if [y1, y2, y3, y4, m1, m2, d1, d2].all Char.isDigit
          && decide (1 ≤ digitsVal [m1, m2] ∧ digitsVal [m1, m2] ≤ 12)
          && decide (1 ≤ digitsVal [d1, d2] ∧ digitsVal [d1, d2] ≤ 31) then
        some (String.mk [d1, d2, '/', m1, m2, '/', y1, y2, y3, y4])
      else none
  | _ => none

/-- The value written to cell `B4`. -/
def formatInvoiceDate (v : Option JVal) : JVal :=
  let iv := jget v (.jstr "")
  if truthy iv then
    match iv with
    | .jstr s =>
        match formatIsoDate s with
        | some f => .jstr f
        | none => .jstr s
    | other => other
  else .jstr ""

/-- The numeric (and requirements) data extracted from one item by the body
of the per-item loop (lines 164-211).  In the source each coercion happens
at the line of its write; since a raised coercion error aborts the whole
generation and the partially-written workbook is discarded, hoisting the
coercions ahead of the writes (in their source order, so the same first
error is raised) leaves the function's `Except` value unchanged. -/
structure ItemNums where
  req : String
  cost : Rat
  unitCount : Int
  totalValue : Rat
  transportShare : Rat
  insuranceShare : Rat
  storageShare : Rat
  customsTaxPercent : Rat
  addCustomsTaxPercent : Rat
  kkdfPercent : Rat
  vatPercentCell : Rat
  customsTax : Rat
  addCustomsTax : Rat
  kkdf : Rat
  vat : Rat
  totalTaxUsd : Rat
  vatBase : Rat
  vatPercent : Rat

/-- All fallible extractions of the per-item loop body, in source order. -/
def coerceItem (item : Item) : Except String ItemNums := do
  let req ← reqString item.requirements
  let cost ← getFloat item.cost
  let uc ← getInt item.unit_count
  let tv ← getFloat item.total_value
  let ts ← getFloat item.transport_share
  let ins ← getFloat item.insurance_share
  let ss ← getFloat item.storage_share
  let (ctp, actp, kkp, vtp) ←
    match item.hs_code_data with
    | some hs => do
        let a ← getFloat hs.customs_tax_percent
        let b ← getFloat hs.additional_customs_tax_percent
        let c ← getFloat hs.kkdf_percent
        let d ← getFloat hs.vat_percent
        pure (a, b, c, d)
    | none => pure ((0 : Rat), (0 : Rat), (0 : Rat), (0 : Rat))
  let ct ← getFloat item.customs_tax
  let act ← getFloat item.additional_customs_tax
  let kk ← getFloat item.kkdf
  let vt ← getFloat item.vat
  let ttu ← getFloat item.total_tax_usd
  let vb ← getFloat item.vat_base
  let vp ←
    match item.hs_code_data with
    | some hs => getFloat hs.vat_percent
    | none => pure (0 : Rat)
  pure { req := req, cost := cost, unitCount := uc, totalValue := tv,
         transportShare := ts, insuranceShare := ins, storageShare := ss,
         customsTaxPercent := ctp, addCustomsTaxPercent := actp,
         kkdfPercent := kkp, vatPercentCell := vtp,
         customsTax := ct, addCustomsTax := act, kkdf := kk, vat := vt,
         totalTaxUsd := ttu, vatBase := vb, vatPercent := vp }

/-- The banding fills of lines 223-224. -/
def grayFill : Fill := .fillOf "solid FFD3D3D3"

/-- White solid banding fill. -/
def whiteFill : Fill := .fillOf "solid FFFFFFFF"

/-- One banding pass (lines 226-233): set the fill of columns 1-30 of the
item's row; `ws.cell(row, col)` materializes the cells, so `max_row` grows
to at least the row. -/
def applyBanding (ws : Ws) (r : Nat) (f : Fill) : Ws :=
  { ws with
    fills := fun p => if p.1 = r ∧ 1 ≤ p.2 ∧ p.2 ≤ 30 then f else ws.fills p
    maxRow := max ws.maxRow r }

/-- Whether the template cell carries any modelled style (`has_style`; the
source predicate also consults font, number format, protection and
alignment, which are outside the modelled state). -/
def hasStyleB (ws : Ws) (r c : Nat) : Bool :=
  !(decide (ws.fills (r, c) = Fill.noFill) && decide (ws.borders (r, c) = Bord.empty))

/-- `ws.insert_rows(idx)`: every cell (value and style) at a row `≥ idx`
shifts down by one and row `idx` becomes blank.  openpyxl does **not**
translate merged-cell regions (a documented limitation: row/column
insertion moves cells only), so `merges` is unchanged. -/
def insert_rows (ws : Ws) (idx : Nat) : Ws :=
  { ws with
    cells := fun p =>
      if p.1 < idx then ws.cells p
      else if p.1 = idx then none
      else ws.cells (p.1 - 1, p.2)
    fills := fun p =>
      if p.1 < idx then ws.fills p
      else if p.1 = idx then Fill.noFill
      else ws.fills (p.1 - 1, p.2)
    borders := fun p =>
      if p.1 < idx then ws.borders p
      else if p.1 = idx then Bord.empty
      else ws.borders (p.1 - 1, p.2)
    maxRow := ws.maxRow + 1 }

/-- Style replication of lines 139-149: for each of columns 1-30, if the
template cell has a style, copy the modelled style attributes onto the new
row's cell. -/
def cloneStyles (ws : Ws) (tr r : Nat) : Ws :=
  { ws with
    fills := fun p =>
      if p.1 = r ∧ 1 ≤ p.2 ∧ p.2 ≤ 30 ∧ hasStyleB ws tr p.2 then ws.fills (tr, p.2)
      else ws.fills p
    borders := fun p =>
      if p.1 = r ∧ 1 ≤ p.2 ∧ p.2 ≤ 30 ∧ hasStyleB ws tr p.2 then ws.borders (tr, p.2)
      else ws.borders p
    maxRow := max ws.maxRow r }

/-- A single-row copy of region `m` at row `r` (lines 156-161). -/
def reRow (m : CellRange) (r : Nat) : CellRange :=
  { m with min_row := r, max_row := r }

/-- The regions whose row span is exactly the template row. -/
def row10merges (tr : Nat) (ms : List CellRange) : List CellRange :=
  ms.filter (fun m => decide (m.min_row = tr ∧ m.max_row = tr))

/-- Merge replication of lines 153-162: for every currently-registered
region spanning exactly the template row, register an identical-column-span
single-row region at the new row (`ws.merge_cells` appends). -/
def cloneMergesTo (ws : Ws) (tr r : Nat) : Ws :=
  { ws with merges := ws.merges ++ (row10merges tr ws.merges).map (fun m => reRow m r) }

/-- The row-clone step for one inserted row (lines 136-162): insert the
blank row, copy styles (and, in the source, the row height) from the
template row, replicate the template row's merged regions. -/
def cloneRow (ws : Ws) (tr r : Nat) : Ws :=
  cloneMergesTo (cloneStyles (insert_rows ws r) tr r) tr r

/-- Sequential `set_cell_value` writes, all on row `r`, one per listed
`(column, value)` pair, in list order. -/
def writeRow (ws : Ws) (r : Nat) (l : List (Nat × JVal)) : Ws :=
  l.foldl (fun w e => set_cell_value w r e.1 e.2) ws

/-- Sequential `set_cell_value` writes, one per listed
`(row, column, value)` triple, in list order. -/
def writeCells (ws : Ws) (l : List (Nat × Nat × JVal)) : Ws :=
  l.foldl (fun w e => set_cell_value w e.1 e.2.1 e.2.2) ws

/-- The 30 `(column, value)` pairs one item contributes to its row, in the
order of the writes at lines 171-221 (columns A-AD left to right). -/
def rowVals (item : Item) (n : ItemNums) : List (Nat × JVal) :=
  [(1, jget item.hts_code (.jstr "")),
   (2, jget item.country_of_origin (.jstr "")),
   (3, jget item.style (.jstr "")),
   (4, jget item.color (.jstr "")),
   (5, jget item.category (.jstr "")),
   (6, jget item.description (.jstr "")),
   (7, jget item.fabric_content (.jstr "")),
   (8, .jnum n.cost),
   (9, .jnum (n.unitCount : Rat)),
   (10, .jnum n.totalValue),
   (11, jget item.tr_hs_code (.jstr "")),
   (12, .jstr (if containsSub n.req "EX REGISTRY FORM" then "X" else "")),
   (13, .jstr (if containsSub n.req "AZO DYE TEST" then "X" else "")),
   (14, .jstr (if containsSub n.req "SPECIAL CUSTOM" then "X" else "")),
   (15, .jnum n.transportShare),
   (16, .jnum n.insuranceShare),
   (17, .jnum n.storageShare),
   (18, .jnum n.customsTaxPercent),
   (19, .jnum n.addCustomsTaxPercent),
   (20, .jnum n.kkdfPercent),
   (21, .jnum n.vatPercentCell),
   (22, .jnum n.customsTax),
   (23, .jnum n.addCustomsTax),
   (24, .jnum n.kkdf),
   (25, .jnum n.vatBase),
   (26, .jnum (n.vatBase - n.kkdf)),
   (27, .jnum n.vat),
   (28, .jnum ((n.vatBase - n.kkdf) * n.vatPercent)),
   (29, .jnum n.totalTaxUsd),
   (30, .jnum (n.totalTaxUsd - n.kkdf))]

/-- The pure tail of the per-item loop body: the clone step for `idx > 0`
(lines 136-162), the 30 column writes (lines 171-221) and the banding fill
(lines 226-233), at row `10 + idx`. -/
def processItemPure (idx : Nat) (item : Item) (n : ItemNums) (ws0 : Ws) : Ws :=
  let r := 10 + idx
  let ws := if idx > 0 then cloneRow ws0 10 r else ws0
  let ws := writeRow ws r (rowVals item n)
  applyBanding ws r (if idx % 2 = 0 then grayFill else whiteFill)

/-- One iteration of the per-item loop (lines 133-233). -/
def processItem (idx : Nat) (item : Item) (ws : Ws) : Except String Ws := do
  let n ← coerceItem item
  pure (processItemPure idx item n ws)

/-- The per-item loop `for index, item in enumerate(items)` from index `idx`. -/
def processItems (idx : Nat) (items : List Item) (ws : Ws) : Except String Ws :=
  match items with
  | [] => .ok ws
  | item :: rest => do
      let ws' ← processItem idx item ws
      processItems (idx + 1) rest ws'

/-- Region membership used by the scrub passes. -/
def inReg (rmin rmax cmin cmax r c : Nat) : Prop :=
  rmin ≤ r ∧ r ≤ rmax ∧ cmin ≤ c ∧ c ≤ cmax

instance (rmin rmax cmin cmax r c : Nat) : Decidable (inReg rmin rmax cmin cmax r c) := by
  unfold inReg
  infer_instance

/-- One scrub pass over the rectangle rows `rmin..rmax`, columns
`cmin..cmax` (the `iter_rows` loops at lines 243-248, 256-261, 269-274):
every cell's border becomes `Border()` and its fill `no fill`, and its
value is cleared — but only when the current value is truthy
(`if cell.value:`). -/
def scrubRegion (ws : Ws) (rmin rmax cmin cmax : Nat) : Ws :=
  { ws with
    cells := fun p =>
      if inReg rmin rmax cmin cmax p.1 p.2 ∧ truthyOpt (ws.cells p) then none
      else ws.cells p
    fills := fun p =>
      if inReg rmin rmax cmin cmax p.1 p.2 then Fill.noFill else ws.fills p
    borders := fun p =>
      if inReg rmin rmax cmin cmax p.1 p.2 then Bord.empty else ws.borders p }

/-- Registration of one always-true white-border conditional-formatting rule
on a range (`ws.conditional_formatting.add(range, rule)`). -/
def addCF (ws : Ws) (rmin rmax cmin cmax : Nat) : Ws :=
  { ws with cfRules := ws.cfRules ++ [⟨rmin, rmax, cmin, cmax, true⟩] }

/-- The three scrub passes of lines 235-277.  Each `iter_rows` bound is
`min(ws.max_row, 6000)` where the source writes it (regions 1 and 3); the
conditional-formatting ranges are the literal range strings
(`A{start}:AD6000`, `AC1:BZ7`, `AE1:BZ6000`). -/
def scrubAll (ws : Ws) (lastDataRow : Nat) : Ws :=
  let startRow := lastDataRow + 1
  let ws1 := addCF (scrubRegion ws startRow (min ws.maxRow 6000) 1 30) startRow 6000 1 30
  let ws2 := addCF (scrubRegion ws1 1 7 29 78) 1 7 29 78
  let ws3 := addCF (scrubRegion ws2 1 (min ws2.maxRow 6000) 31 78) 1 6000 31 78
  ws3

/-- The header-context writes of lines 46-72 (invoice block, rows 2 and 4):
the four `float()`/`int()` coercions are hoisted ahead of the writes in
their source order (63, 64, 69, 70, 71, 72); an aborted run's
partially-written workbook is discarded, so the hoisting preserves the
`Except` value. -/
def writeHeaderBlock (ws : Ws) (cal : Calc) : Except String Ws := do
  let tv ← getFloat cal.total_value
  let tq ← getInt cal.total_quantity
  let tc ← getFloat cal.transport_cost
  let ic ← getFloat cal.insurance_cost
  let sc ← getFloat cal.storage_cost
  let cr ← getFloat cal.currency_rate
  pure (writeCells ws
    [(2, 2, jget cal.invoice_no (.jstr "")),
     (4, 2, formatInvoiceDate cal.invoice_date),
     (2, 3, .jstr "TOTAL VALUE"),
     (2, 4, .jnum tv),
     (4, 4, .jnum (tq : Rat)),
     (2, 5, .jstr "TRANSPORT COST"),
     (4, 5, .jstr "INSURANCE COST"),
     (2, 7, .jstr "STORAGE COST"),
     (4, 7, .jstr "CURRENCY -USD/TL-"),
     (2, 6, .jnum tc),
     (4, 6, .jnum ic),
     (2, 8, .jnum sc),
     (4, 8, .jnum cr)])

/-- The aggregation block of lines 74-97: the six cross-item sums (any
uncoercible field aborts), then the eight summary labels `A6`-`H6` and the
eight summary values `A7`-`H7`, two of which are the derived
`D7 = sum(vat) + sum(kkdf)` and `G7 = sum(total_tax_usd) - sum(kkdf)`. -/
def writeSummaryBlock (ws : Ws) (items : List Item) : Except String Ws := do
  let totalCustoms ← sumField items Item.customs_tax
  let totalAddCustoms ← sumField items Item.additional_customs_tax
  let totalKkdf ← sumField items Item.kkdf
  let totalVat ← sumField items Item.vat
  let totalTaxUsd ← sumField items Item.total_tax_usd
  let totalTaxTl ← sumField items Item.total_tax_tl
  pure (writeCells ws
    [(6, 1, .jstr "TOTAL CUSTOMS TAX"),
     (6, 2, .jstr "TOTAL ADD. CUSTOMS TAX"),
     (6, 3, .jstr "TOTAL KKDF"),
     (6, 4, .jstr "TOTAL VAT (KKDF INCLUDED)"),
     (6, 5, .jstr "TOTAL VAT (KKDF EXCLUDED)"),
     (6, 6, .jstr "TOTAL TAX (KKDF INCLUDED)"),
     (6, 7, .jstr "TOTAL TAX (KKDF EXCLUDED)"),
     (6, 8, .jstr "TOTAL TAX TURKISH LIRA"),
     (7, 1, .jnum totalCustoms),
     (7, 2, .jnum totalAddCustoms),
     (7, 3, .jnum totalKkdf),
     (7, 4, .jnum (totalVat + totalKkdf)),
     (7, 5, .jnum totalVat),
     (7, 6, .jnum totalTaxUsd),
     (7, 7, .jnum (totalTaxUsd - totalKkdf)),
     (7, 8, .jnum totalTaxTl)])

/-- The fixed column headers of row 9 (lines 99-128), columns A-AD. -/
def writeColHeaders (ws : Ws) : Ws :=
  writeRow ws 9
    [(1, .jstr "HTS Codes"),
     (2, .jstr "Country of Origin"),
     (3, .jstr "Style"),
     (4, .jstr "Color"),
     (5, .jstr "Category"),
     (6, .jstr "Description"),
     (7, .jstr "Fabric Content"),
     (8, .jstr "Cost"),
     (9, .jstr "Unit"),
     (10, .jstr "Total Value"),
     (11, .jstr "TR HS CODE"),
     (12, .jstr "EX REGISTRY FORM"),
     (13, .jstr "AZO DYE TEST"),
     (14, .jstr "SPECIAL CUSTOMS"),
     (15, .jstr "TRANSPORT"),
     (16, .jstr "INSURANCE"),
     (17, .jstr "STORAGE"),
     (18, .jstr "CUSTOMS TAX %"),
     (19, .jstr "ADDITIONAL CUSTOMS TAX %"),
     (20, .jstr "KKDF %"),
     (21, .jstr "VAT %"),
     (22, .jstr "TOTAL CUSTOMS TAX"),
     (23, .jstr "TOTAL ADDT CUSTOMS TAX"),
     (24, .jstr "KKDF VALUE"),
     (25, .jstr "VAT BASE WITH KKDF"),
     (26, .jstr "VAT BASE WITHOUT KKDF"),
     (27, .jstr "VAT VALUE WITH KKDF"),
     (28, .jstr "VAT VALUE WITHOUT KKDF"),
     (29, .jstr "TOTAL TAX WITH KKDF"),
     (30, .jstr "TOTAL TAX WITHOUT KKDF")]

/-- `export_excel(data)` (lines 26-282), from the snapshot-loaded template
`tpl` to the saved workbook state: the invoice header block, the
aggregation block, the row-9 column headers, the per-item loop, and the
three scrub passes (`last_data_row` is fixed before the loop, line 131).
The output path (`/tmp/tax_calculation_<reference>.xlsx`) carries no
claim-relevant state and is not part of the result; `Except.error` means
the generation raised and no artifact was produced. -/
def export_excel (tpl : Ws) (data : ExcelData) : Except String Ws := do
  let ws ← writeHeaderBlock tpl data.calculation
  let ws ← writeSummaryBlock ws data.items
  let ws := writeColHeaders ws
  let lastDataRow := 10 + data.items.length - 1
  let ws ← processItems 0 data.items ws
  pure (scrubAll ws lastDataRow)

/-- Default country-code table of `excel_beyanname_export.py` (lines 9-33):
2-letter code to 3-digit numeric code, as an association list (a Python
dict literal with distinct keys). -/
def DEFAULT_COUNTRY_CODE_MAPPING : List (String × String) :=
  [("CN", "720"), ("ID", "700"), ("KH", "696"), ("VN", "690"), ("US", "400"),
   ("TW", "736"), ("IT", "005"), ("RO", "066"), ("JO", "628"), ("NI", "432"),
   ("AQ", "891"), ("TH", "680"), ("LK", "669"), ("AL", "070"), ("SG", "706"),
   ("GT", "416"), ("CO", "480"), ("CM", "302"), ("PH", "708"), ("TR", "052"),
   ("CA", "404"), ("SV", "428"), ("HK", "740")]

/-- Lookup in the effective mapping
`{**DEFAULT_COUNTRY_CODE_MAPPING, **custom_mappings}.get(code, '')`
(lines 49-50 and 86): an override key wins over the default table, a code
absent from both maps yields `''`.  The merge is a fresh dict — the default
table itself is a module constant the function never mutates, which the
purely functional embedding reflects by construction. -/
def mergedMapping (custom : List (String × String)) (code : String) : String :=
  match custom.lookup code with
  | some v => v
  | none => (DEFAULT_COUNTRY_CODE_MAPPING.lookup code).getD ""

/-- The BEYANNAME worksheet: plain cell values and per-cell number formats
(the static template has no claim-relevant merges; all its writes are
direct `ws[ref] = value` assignments). -/
structure BWs where
  cells : Nat × Nat → Option JVal
  numFmts : Nat × Nat → Option String

/-- Direct assignment `ws[ref] = value`. -/
def bwrite (ws : BWs) (r c : Nat) (v : JVal) : BWs :=
  { ws with cells := fun p => if p = (r, c) then some v else ws.cells p }

/-- Number-format assignment `cell.number_format = fmt`. -/
def bsetFmt (ws : BWs) (r c : Nat) (f : String) : BWs :=
  { ws with numFmts := fun p => if p = (r, c) then some f else ws.numFmts p }

/-- Country-code conversion of line 86:
`country_code_mapping.get(country_of_origin.upper(), '') if
country_of_origin else ''`; `.upper()` on a truthy non-string raises. -/
def countryCode3 (custom : List (String × String)) (v : Option JVal) :
    Except String String :=
  let c := jget v (.jstr "")
  if truthy c then
    match c with
    | .jstr s => .ok (mergedMapping custom s.toUpper)
    | _ => .error "upper AttributeError"
  else .ok ""

/-- One TANIM component: appended when truthy (lines 94-102); a truthy
non-string would make the later `' '.join` raise. -/
def tanimPartJ (x : JVal) : Except String (Option String) :=
  if truthy x then
    match x with
    | .jstr s => .ok (some s)
    | _ => .error "join TypeError"
  else .ok none

/-- The payload of `export_beyanname_excel`: same `calculation`/`items`
shape plus the optional `customMappings` override and a `timestamp`
(used only in the output path). -/
structure BeyData where
  calculation : Calc
  items : List Item
  customMappings : List (String × String) := []
  timestamp : Option JVal := none

/-- The fallible extractions of one BEYANNAME loop iteration (lines 61-104),
in source order: the two invoice coercions, the `vat_percent` coercion (when
`hs_code_data` is truthy), the country-code conversion, and the four TANIM
components (whose truthy non-string values would make `' '.join` raise).
As in `coerceItem`, the coercions are hoisted ahead of the writes; an
aborted run's partial workbook is discarded, so the `Except` value is
unchanged. -/
structure BeyNums where
  cost : Rat
  uc : Int
  vpd : Rat
  code3 : String
  tanim : String

/-- All fallible steps of one BEYANNAME iteration, in source order. -/
def coerceBeyItem (custom : List (String × String)) (item : Item) :
    Except String BeyNums := do
  let cost ← getFloat item.cost
  let uc ← getInt item.unit_count
  let vpd ←
    match item.hs_code_data with
    | some hs => getFloat hs.vat_percent
    | none => pure (0 : Rat)
  let code3 ← countryCode3 custom item.country_of_origin
  let styleP ← tanimPartJ (jget item.style (.jstr ""))
  let descTrP ← tanimPartJ
    (match item.hs_code_data with
     | some hs => jget hs.description_tr (.jstr "")
     | none => .jstr "")
  let itemDescP ← tanimPartJ
    (match item.product_data with
     | some pd => jget pd.item_description (.jstr "")
     | none => .jstr "")
  let fabricP ← tanimPartJ (jget item.fabric_content (.jstr ""))
  pure { cost := cost, uc := uc, vpd := vpd, code3 := code3,
         tanim := String.intercalate " "
           ([styleP, descTrP, itemDescP, fabricP].filterMap id) }

/-- Sequential direct writes `ws[ref] = value`, all on row `r`. -/
def bwriteRow (ws : BWs) (r : Nat) (l : List (Nat × JVal)) : BWs :=
  l.foldl (fun w e => bwrite w r e.1 e.2) ws

/-- The 15 `(column, value)` pairs of one BEYANNAME row, in the order of the
writes at lines 107-125.  Column B (KIYMET) receives `cost * unit_count`,
not the item's own `total_value` field (line 64: "NOT CIF, just invoice
value"). -/
def beyRowVals (item : Item) (n : BeyNums) : List (Nat × JVal) :=
  [(1, jget item.tr_hs_code (.jstr "")),
   (2, .jnum (n.cost * (n.uc : Rat))),
   (3, .jstr n.code3),
   (4, match item.hs_code_data with
       | some hs => jget hs.unit (.jstr "")
       | none => .jstr ""),
   (5, .jstr "1"),
   (6, .jstr "BI"),
   (7, match item.product_data with
       | some pd => jget pd.brand (.jstr "")
       | none => .jstr ""),
   (8, .jnum (n.uc : Rat)),
   (9, .jstr "K1"),
   (10, .jstr "9"),
   (11, .jstr ""),
   (12, .jstr "11"),
   (13, .jstr n.tanim),
   (14, .jnum (n.vpd * 100)),
   (15, .jstr "-")]

/-- One iteration of the BEYANNAME per-item loop (lines 57-125), writing row
`2 + idx`.  The `number_format = '@'` assignment on column C (line 113)
touches only the format map and commutes with the value writes, so it is
applied after the row's values. -/
def processBeyItem (custom : List (String × String)) (idx : Nat) (item : Item)
    (ws : BWs) : Except String BWs := do
  let n ← coerceBeyItem custom item
  pure (bsetFmt (bwriteRow ws (2 + idx) (beyRowVals item n)) (2 + idx) 3 "@")

/-- The BEYANNAME per-item loop from index `idx`. -/
def processBeyItems (custom : List (String × String)) (idx : Nat)
    (items : List Item) (ws : BWs) : Except String BWs :=
  match items with
  | [] => .ok ws
  | item :: rest => do
      let ws' ← processBeyItem custom idx item ws
      processBeyItems custom (idx + 1) rest ws'

/-- `export_beyanname_excel(data)` (lines 35-132), from the loaded static
template `tpl` to the saved workbook state.  The merged mapping is built
once up front (line 50) and only read afterwards; the output path
(`/tmp/beyanname_<reference>_<timestamp>.xlsx`) carries no claim-relevant
state. -/
def export_beyanname_excel (tpl : BWs) (data : BeyData) : Except String BWs :=
  processBeyItems data.customMappings 0 data.items tpl

/-! ### Merge-geometry predicates and basic write lemmas -/

/-- No registered region contains the coordinate `(r, c)`. -/
def MergeFreeCell (ms : List CellRange) (r c : Nat) : Prop :=
  ∀ m ∈ ms, m.coversB r c = false

/-- Modelled from the spec: the template asset is not part of the
repository sources; its merged regions are confined to the header/summary
band (rows 1-9) or span exactly the template data row 10. -/
def TplMergesOK (ms : List CellRange) : Prop :=
  ∀ m ∈ ms, m.max_row ≤ 9 ∨ (m.min_row = 10 ∧ m.max_row = 10)

/-- No region spanning exactly the template row covers column `c`. -/
def Row10ColFree (ms : List CellRange) (c : Nat) : Prop :=
  ∀ m ∈ ms, m.min_row = 10 → m.max_row = 10 → ¬(m.min_col ≤ c ∧ c ≤ m.max_col)

/-- Every region is a template region or a single-row clone (at a row
`≥ 11`) of a template region spanning exactly row 10. -/
def MergesFrom (tms ms : List CellRange) : Prop :=
  ∀ m ∈ ms, m ∈ tms ∨ ∃ m₀ ∈ row10merges 10 tms, ∃ r, 11 ≤ r ∧ m = reRow m₀ r

/-- Every region lies in rows 1-9 or is a single-row region at a row `≥ 10`. -/
def MergesWF (ms : List CellRange) : Prop :=
  ∀ m ∈ ms, m.max_row ≤ 9 ∨ (m.min_row = m.max_row ∧ 10 ≤ m.min_row)

/-! ### Named write lists, extent invariant and concrete witness fixtures -/

/-- All merge clones the loop registers for the given index list: one copy
of every template-row region per positive index `j`, placed at row `10 + j`. -/
def allClones (tms : List CellRange) (idxs : List Nat) : List CellRange :=
  idxs.flatMap (fun j =>
    if j = 0 then [] else (row10merges 10 tms).map (fun m => reRow m (10 + j)))

/-- The worksheet holds nothing (no value, default styles) below its
maximum materialized row. -/
def Bounded (ws : Ws) : Prop :=
  ∀ p : Nat × Nat, ws.maxRow < p.1 →
    ws.cells p = none ∧ ws.fills p = Fill.noFill ∧ ws.borders p = Bord.empty

/-- The sixteen summary-block writes of lines 81-97, parametrized by the six
cross-item sums. -/
def summaryL (t1 t2 t3 t4 t5 t6 : Rat) : List (Nat × Nat × JVal) :=
  [(6, 1, .jstr "TOTAL CUSTOMS TAX"),
   (6, 2, .jstr "TOTAL ADD. CUSTOMS TAX"),
   (6, 3, .jstr "TOTAL KKDF"),
   (6, 4, .jstr "TOTAL VAT (KKDF INCLUDED)"),
   (6, 5, .jstr "TOTAL VAT (KKDF EXCLUDED)"),
   (6, 6, .jstr "TOTAL TAX (KKDF INCLUDED)"),
   (6, 7, .jstr "TOTAL TAX (KKDF EXCLUDED)"),
   (6, 8, .jstr "TOTAL TAX TURKISH LIRA"),
   (7, 1, .jnum t1),
   (7, 2, .jnum t2),
   (7, 3, .jnum t3),
   (7, 4, .jnum (t4 + t3)),
   (7, 5, .jnum t4),
   (7, 6, .jnum t5),
   (7, 7, .jnum (t5 - t3)),
   (7, 8, .jnum t6)]

/-- A minimal template worksheet: no content, no merges, extent row 10. -/
def tplPlain : Ws :=
  { cells := fun _ => none, fills := fun _ => Fill.noFill,
    borders := fun _ => Bord.empty, merges := [], cfRules := [], maxRow := 10 }

/-- A header-band merged region `A2:C2`. -/
def mergeA2C2 : CellRange := ⟨1, 2, 3, 2⟩

/-- A template with one merged region in the header band. -/
def tplMergeHdr : Ws := { tplPlain with merges := [mergeA2C2] }

/-- A minimal BEYANNAME template worksheet. -/
def bwsPlain : BWs := { cells := fun _ => none, numFmts := fun _ => none }

/-- A one-item BEYANNAME payload whose item carries a `total_value` (999)
that disagrees with `cost * unit_count` (2 × 3 = 6). -/
def dataBey : BeyData :=
  { calculation := {},
    items := [{ cost := some (.jnum 2), unit_count := some (.jnum 3),
                total_value := some (.jnum 999) }] }

/-- A merged region `A10:B10` spanning exactly the template data row. -/
def mergeA10B10 : CellRange := ⟨1, 10, 2, 10⟩

/-- A template with one merged region on the template data row. -/
def tplC1 : Ws := { tplPlain with merges := [mergeA10B10] }

/-- A two-item payload of empty items (every field absent). -/
def dataC1 : ExcelData := { calculation := {}, items := [{}, {}] }

/-- A one-item payload whose item carries an HTS code. -/
def dataC2 : ExcelData :=
  { calculation := {}, items := [{ hts_code := some (.jstr "6109.10") }] }

/-- A one-item payload with explicit per-item tax amounts. -/
def dataC4 : ExcelData :=
  { calculation := {},
    items := [{ customs_tax := some (.jnum 10),
                additional_customs_tax := some (.jnum 1),
                kkdf := some (.jnum 5),
                vat := some (.jnum 7),
                total_tax_usd := some (.jnum 20),
                total_tax_tl := some (.jnum 30) }] }

/-- A one-item payload realizing the spec's Scenario D
(`vat_base = 100`, `kkdf = 5`, `hs_code_data.vat_percent = 0.10`). -/
def dataC5 : ExcelData :=
  { calculation := {},
    items := [{ vat_base := some (.jnum 100),
                kkdf := some (.jnum 5),
                hs_code_data := some { vat_percent := some (.jnum (1 / 10)) } }] }

/-- A template carrying a falsy literal `0` at `A11`, below the data row. -/
def tplC6 : Ws :=
  { cells := fun p => if p = (11, 1) then some (.jnum 0) else none,
    fills := fun _ => Fill.noFill, borders := fun _ => Bord.empty,
    merges := [], cfRules := [], maxRow := 11 }

/-- A one-item payload of a single empty item. -/
def dataC6 : ExcelData := { calculation := {}, items := [{}] }

/-- A line item with coercible numeric fields. -/
def itemC7 : Item := { cost := some (.jnum 3), unit_count := some (.jnum 2) }

/-- A one-item payload with coercible numeric fields. -/
def dataC7 : ExcelData := { calculation := {}, items := [itemC7] }

/-- The empty payload. -/
def dataC9 : ExcelData := { calculation := {}, items := [] }

theorem coversB_true_iff (m : CellRange) (r c : Nat) :
    m.coversB r c = true ↔
      m.min_row ≤ r ∧ r ≤ m.max_row ∧ m.min_col ≤ c ∧ c ≤ m.max_col := by
  simp [CellRange.coversB]

theorem mergesWF_of (tms ms : List CellRange) (hok : TplMergesOK tms)
    (hfrom : MergesFrom tms ms) : MergesWF ms := by
  intro m hm
  rcases hfrom m hm with h | ⟨m₀, hm₀, r, hr, rfl⟩
  · rcases hok m h with h9 | ⟨h1, h2⟩
    · exact Or.inl h9
    · exact Or.inr ⟨h1.trans h2.symm, le_of_eq h1.symm⟩
  · refine Or.inr ⟨rfl, ?_⟩
    show 10 ≤ (reRow m₀ r).min_row
    simp only [reRow]
    omega

theorem writeCell_cells (ws : Ws) (r c : Nat) (v : JVal) (p : Nat × Nat) :
    (writeCell ws r c v).cells p = if p = (r, c) then some v else ws.cells p := rfl

theorem writeCell_merges (ws : Ws) (r c : Nat) (v : JVal) :
    (writeCell ws r c v).merges = ws.merges := rfl

theorem anchorOf_eq_self (ms : List CellRange) (r c : Nat)
    (h : MergeFreeCell ms r c) : anchorOf ms r c = (r, c) := by
  unfold anchorOf mergeContaining
  have hn : ms.find? (fun m => m.coversB r c) = none := by
    rw [List.find?_eq_none]
    intro m hm
    simp [h m hm]
  rw [hn]

theorem anchorOf_eq_imp (ms : List CellRange) (r c : Nat) (p : Nat × Nat)
    (hfree : MergeFreeCell ms p.1 p.2) (h : anchorOf ms r c = p) : (r, c) = p := by
  unfold anchorOf at h
  cases hm : mergeContaining ms r c with
  | none => rw [hm] at h; exact h
  | some m =>
      rw [hm] at h
      unfold mergeContaining at hm
      have hmem : m ∈ ms := List.mem_of_find?_eq_some hm
      have hcov := List.find?_some hm
      simp only [coversB_true_iff] at hcov
      obtain ⟨h1, h2⟩ : p.1 = m.min_row ∧ p.2 = m.min_col := by
        rw [← h]; exact ⟨rfl, rfl⟩
      exfalso
      have hcov2 : m.coversB p.1 p.2 = true := by
        rw [coversB_true_iff, h1, h2]
        omega
      rw [hfree m hmem] at hcov2
      exact Bool.false_ne_true hcov2

theorem anchorOf_fst_le (ms : List CellRange) (r c : Nat) :
    (anchorOf ms r c).1 ≤ r := by
  unfold anchorOf
  cases hm : mergeContaining ms r c with
  | none => simp
  | some m =>
      unfold mergeContaining at hm
      have hcov := List.find?_some hm
      simp only [coversB_true_iff] at hcov
      show m.min_row ≤ r
      omega

theorem anchorOf_fst_eq (ms : List CellRange) (r c : Nat) (hwf : MergesWF ms)
    (hr : 10 ≤ r) : (anchorOf ms r c).1 = r := by
  unfold anchorOf
  cases hm : mergeContaining ms r c with
  | none => simp
  | some m =>
      unfold mergeContaining at hm
      have hmem : m ∈ ms := List.mem_of_find?_eq_some hm
      have hcov := List.find?_some hm
      simp only [coversB_true_iff] at hcov
      show m.min_row = r
      rcases hwf m hmem with h9 | ⟨heq, h10⟩
      · omega
      · omega

theorem set_cell_value_eq_writeCell (ws : Ws) (r c : Nat) (v : JVal) :
    set_cell_value ws r c v =
      writeCell ws (anchorOf ws.merges r c).1 (anchorOf ws.merges r c).2 v := by
  unfold set_cell_value anchorOf
  cases hm : mergeContaining ws.merges r c with
  | some m => rfl
  | none =>
      have hfalse : isMergedNonAnchor ws.merges r c = false := by
        unfold isMergedNonAnchor
        rw [Bool.eq_false_iff]
        intro hany
        rw [List.any_eq_true] at hany
        rcases hany with ⟨m, hmem, hp⟩
        rw [Bool.and_eq_true] at hp
        unfold mergeContaining at hm
        have := (List.find?_eq_none.mp hm) m hmem
        exact this hp.1
      unfold directWrite
      rw [hfalse]
      rfl

theorem scv_merges (ws : Ws) (r c : Nat) (v : JVal) :
    (set_cell_value ws r c v).merges = ws.merges := by
  rw [set_cell_value_eq_writeCell]; rfl

theorem scv_fills (ws : Ws) (r c : Nat) (v : JVal) :
    (set_cell_value ws r c v).fills = ws.fills := by
  rw [set_cell_value_eq_writeCell]; rfl

theorem scv_borders (ws : Ws) (r c : Nat) (v : JVal) :
    (set_cell_value ws r c v).borders = ws.borders := by
  rw [set_cell_value_eq_writeCell]; rfl

theorem scv_cfRules (ws : Ws) (r c : Nat) (v : JVal) :
    (set_cell_value ws r c v).cfRules = ws.cfRules := by
  rw [set_cell_value_eq_writeCell]; rfl

theorem scv_cells_pinned (ws : Ws) (r c : Nat) (v : JVal) (p : Nat × Nat)
    (hfree : MergeFreeCell ws.merges p.1 p.2) (hne : (r, c) ≠ p) :
    (set_cell_value ws r c v).cells p = ws.cells p := by
  rw [set_cell_value_eq_writeCell, writeCell_cells, if_neg]
  intro he
  exact hne (anchorOf_eq_imp _ _ _ _ hfree he.symm)

theorem scv_cells_self (ws : Ws) (r c : Nat) (v : JVal)
    (hfree : MergeFreeCell ws.merges r c) :
    (set_cell_value ws r c v).cells (r, c) = some v := by
  rw [set_cell_value_eq_writeCell, anchorOf_eq_self _ _ _ hfree]
  rw [writeCell_cells, if_pos rfl]

theorem scv_cells_above (ws : Ws) (r c : Nat) (v : JVal) (p : Nat × Nat)
    (h : r < p.1) : (set_cell_value ws r c v).cells p = ws.cells p := by
  rw [set_cell_value_eq_writeCell, writeCell_cells, if_neg]
  intro he
  have hle := anchorOf_fst_le ws.merges r c
  have hp : p.1 = (anchorOf ws.merges r c).1 := by rw [he]
  omega

theorem scv_cells_offrow (ws : Ws) (r c : Nat) (v : JVal) (p : Nat × Nat)
    (hwf : MergesWF ws.merges) (hr : 10 ≤ r) (hne : p.1 ≠ r) :
    (set_cell_value ws r c v).cells p = ws.cells p := by
  rw [set_cell_value_eq_writeCell, writeCell_cells, if_neg]
  intro he
  have hfe := anchorOf_fst_eq ws.merges r c hwf hr
  have hp : p.1 = (anchorOf ws.merges r c).1 := by rw [he]
  exact hne (hp.trans hfe)

/-! ### Frame lemmas for write sequences -/

theorem writeRow_cons (ws : Ws) (r : Nat) (e : Nat × JVal) (l : List (Nat × JVal)) :
    writeRow ws r (e :: l) = writeRow (set_cell_value ws r e.1 e.2) r l := rfl

theorem writeCells_cons (ws : Ws) (e : Nat × Nat × JVal) (l : List (Nat × Nat × JVal)) :
    writeCells ws (e :: l) = writeCells (set_cell_value ws e.1 e.2.1 e.2.2) l := rfl

theorem writeRow_merges (ws : Ws) (r : Nat) (l : List (Nat × JVal)) :
    (writeRow ws r l).merges = ws.merges := by
  induction l generalizing ws with
  | nil => rfl
  | cons e rest ih => rw [writeRow_cons, ih, scv_merges]

theorem writeRow_fills (ws : Ws) (r : Nat) (l : List (Nat × JVal)) :
    (writeRow ws r l).fills = ws.fills := by
  induction l generalizing ws with
  | nil => rfl
  | cons e rest ih => rw [writeRow_cons, ih, scv_fills]

theorem writeRow_borders (ws : Ws) (r : Nat) (l : List (Nat × JVal)) :
    (writeRow ws r l).borders = ws.borders := by
  induction l generalizing ws with
  | nil => rfl
  | cons e rest ih => rw [writeRow_cons, ih, scv_borders]

theorem writeRow_cfRules (ws : Ws) (r : Nat) (l : List (Nat × JVal)) :
    (writeRow ws r l).cfRules = ws.cfRules := by
  induction l generalizing ws with
  | nil => rfl
  | cons e rest ih => rw [writeRow_cons, ih, scv_cfRules]

theorem writeCells_merges (ws : Ws) (l : List (Nat × Nat × JVal)) :
    (writeCells ws l).merges = ws.merges := by
  induction l generalizing ws with
  | nil => rfl
  | cons e rest ih => rw [writeCells_cons, ih, scv_merges]

theorem writeCells_fills (ws : Ws) (l : List (Nat × Nat × JVal)) :
    (writeCells ws l).fills = ws.fills := by
  induction l generalizing ws with
  | nil => rfl
  | cons e rest ih => rw [writeCells_cons, ih, scv_fills]

theorem writeCells_borders (ws : Ws) (l : List (Nat × Nat × JVal)) :
    (writeCells ws l).borders = ws.borders := by
  induction l generalizing ws with
  | nil => rfl
  | cons e rest ih => rw [writeCells_cons, ih, scv_borders]

theorem writeCells_cfRules (ws : Ws) (l : List (Nat × Nat × JVal)) :
    (writeCells ws l).cfRules = ws.cfRules := by
  induction l generalizing ws with
  | nil => rfl
  | cons e rest ih => rw [writeCells_cons, ih, scv_cfRules]

theorem writeRow_cells_pinned (ws : Ws) (r : Nat) (l : List (Nat × JVal))
    (p : Nat × Nat) (hfree : MergeFreeCell ws.merges p.1 p.2)
    (hne : ∀ e ∈ l, (r, e.1) ≠ p) :
    (writeRow ws r l).cells p = ws.cells p := by
  induction l generalizing ws with
  | nil => rfl
  | cons e rest ih =>
      rw [writeRow_cons]
      have h1 : MergeFreeCell (set_cell_value ws r e.1 e.2).merges p.1 p.2 := by
        rw [scv_merges]; exact hfree
      rw [ih _ h1 (fun e' he' => hne e' (List.mem_cons_of_mem _ he'))]
      exact scv_cells_pinned ws r e.1 e.2 p hfree (hne e (List.mem_cons_self _ _))

theorem writeRow_cells_offrow (ws : Ws) (r : Nat) (l : List (Nat × JVal))
    (p : Nat × Nat) (hwf : MergesWF ws.merges) (hr : 10 ≤ r) (hne : p.1 ≠ r) :
    (writeRow ws r l).cells p = ws.cells p := by
  induction l generalizing ws with
  | nil => rfl
  | cons e rest ih =>
      rw [writeRow_cons]
      have h1 : MergesWF (set_cell_value ws r e.1 e.2).merges := by
        rw [scv_merges]; exact hwf
      rw [ih _ h1]
      exact scv_cells_offrow ws r e.1 e.2 p hwf hr hne

theorem writeRow_cells_value (ws : Ws) (r c0 : Nat) (v : JVal)
    (l₁ l₂ : List (Nat × JVal)) (hfree : MergeFreeCell ws.merges r c0)
    (h₂ : ∀ e ∈ l₂, e.1 ≠ c0) :
    (writeRow ws r (l₁ ++ (c0, v) :: l₂)).cells (r, c0) = some v := by
  have happ : writeRow ws r (l₁ ++ (c0, v) :: l₂) =
      writeRow (writeRow ws r l₁) r ((c0, v) :: l₂) := by
    unfold writeRow
    rw [List.foldl_append]
  rw [happ, writeRow_cons]
  have hfree1 : MergeFreeCell (writeRow ws r l₁).merges r c0 := by
    rw [writeRow_merges]; exact hfree
  have hfree2 :
      MergeFreeCell (set_cell_value (writeRow ws r l₁) r c0 v).merges r c0 := by
    rw [scv_merges, writeRow_merges]; exact hfree
  rw [writeRow_cells_pinned _ _ _ _ hfree2 ?hcols]
  · exact scv_cells_self _ r c0 v hfree1
  case hcols =>
    intro e he
    intro hcontra
    exact h₂ e he (congrArg Prod.snd hcontra)

theorem writeCells_cells_above (ws : Ws) (l : List (Nat × Nat × JVal))
    (p : Nat × Nat) (hlt : ∀ e ∈ l, e.1 < p.1) :
    (writeCells ws l).cells p = ws.cells p := by
  induction l generalizing ws with
  | nil => rfl
  | cons e rest ih =>
      rw [writeCells_cons]
      rw [ih _ (fun e' he' => hlt e' (List.mem_cons_of_mem _ he'))]
      exact scv_cells_above ws e.1 e.2.1 e.2.2 p (hlt e (List.mem_cons_self _ _))

theorem writeCells_cells_pinned (ws : Ws) (l : List (Nat × Nat × JVal))
    (p : Nat × Nat) (hfree : MergeFreeCell ws.merges p.1 p.2)
    (hne : ∀ e ∈ l, (e.1, e.2.1) ≠ p) :
    (writeCells ws l).cells p = ws.cells p := by
  induction l generalizing ws with
  | nil => rfl
  | cons e rest ih =>
      rw [writeCells_cons]
      have h1 : MergeFreeCell (set_cell_value ws e.1 e.2.1 e.2.2).merges p.1 p.2 := by
        rw [scv_merges]; exact hfree
      rw [ih _ h1 (fun e' he' => hne e' (List.mem_cons_of_mem _ he'))]
      exact scv_cells_pinned ws e.1 e.2.1 e.2.2 p hfree (hne e (List.mem_cons_self _ _))

theorem writeCells_cells_value (ws : Ws) (r0 c0 : Nat) (v : JVal)
    (l₁ l₂ : List (Nat × Nat × JVal)) (hfree : MergeFreeCell ws.merges r0 c0)
    (h₂ : ∀ e ∈ l₂, (e.1, e.2.1) ≠ (r0, c0)) :
    (writeCells ws (l₁ ++ (r0, c0, v) :: l₂)).cells (r0, c0) = some v := by
  have happ : writeCells ws (l₁ ++ (r0, c0, v) :: l₂) =
      writeCells (writeCells ws l₁) ((r0, c0, v) :: l₂) := by
    unfold writeCells
    rw [List.foldl_append]
  rw [happ, writeCells_cons]
  have hfree1 : MergeFreeCell (writeCells ws l₁).merges r0 c0 := by
    rw [writeCells_merges]; exact hfree
  have hfree2 :
      MergeFreeCell (set_cell_value (writeCells ws l₁) r0 c0 v).merges r0 c0 := by
    rw [scv_merges, writeCells_merges]; exact hfree
  rw [writeCells_cells_pinned _ _ _ hfree2 h₂]
  exact scv_cells_self _ r0 c0 v hfree1

/-! ### maxRow tracking and clone-step lemmas -/

theorem scv_maxRow_le (ws : Ws) (r c : Nat) (v : JVal) (h : r ≤ ws.maxRow) :
    (set_cell_value ws r c v).maxRow = ws.maxRow := by
  rw [set_cell_value_eq_writeCell]
  show max ws.maxRow (anchorOf ws.merges r c).1 = ws.maxRow
  have := anchorOf_fst_le ws.merges r c
  omega

theorem writeRow_maxRow (ws : Ws) (r : Nat) (l : List (Nat × JVal))
    (h : r ≤ ws.maxRow) : (writeRow ws r l).maxRow = ws.maxRow := by
  induction l generalizing ws with
  | nil => rfl
  | cons e rest ih =>
      rw [writeRow_cons]
      have h1 := scv_maxRow_le ws r e.1 e.2 h
      rw [ih _ (by rw [h1]; exact h), h1]

theorem writeCells_maxRow (ws : Ws) (l : List (Nat × Nat × JVal))
    (h : ∀ e ∈ l, e.1 ≤ ws.maxRow) : (writeCells ws l).maxRow = ws.maxRow := by
  induction l generalizing ws with
  | nil => rfl
  | cons e rest ih =>
      rw [writeCells_cons]
      have h1 := scv_maxRow_le ws e.1 e.2.1 e.2.2 (h e (List.mem_cons_self _ _))
      rw [ih _ (fun e' he' => by rw [h1]; exact h e' (List.mem_cons_of_mem _ he')), h1]

theorem applyBanding_cells (ws : Ws) (r : Nat) (f : Fill) :
    (applyBanding ws r f).cells = ws.cells := rfl

theorem applyBanding_merges (ws : Ws) (r : Nat) (f : Fill) :
    (applyBanding ws r f).merges = ws.merges := rfl

theorem applyBanding_borders (ws : Ws) (r : Nat) (f : Fill) :
    (applyBanding ws r f).borders = ws.borders := rfl

theorem applyBanding_cfRules (ws : Ws) (r : Nat) (f : Fill) :
    (applyBanding ws r f).cfRules = ws.cfRules := rfl

theorem applyBanding_maxRow (ws : Ws) (r : Nat) (f : Fill) :
    (applyBanding ws r f).maxRow = max ws.maxRow r := rfl

theorem cloneRow_cells (ws : Ws) (tr r : Nat) :
    (cloneRow ws tr r).cells = (insert_rows ws r).cells := rfl

theorem cloneRow_merges (ws : Ws) (tr r : Nat) :
    (cloneRow ws tr r).merges =
      ws.merges ++ (row10merges tr ws.merges).map (fun m => reRow m r) := rfl

theorem cloneRow_cfRules (ws : Ws) (tr r : Nat) :
    (cloneRow ws tr r).cfRules = ws.cfRules := rfl

theorem cloneRow_maxRow (ws : Ws) (tr r : Nat) :
    (cloneRow ws tr r).maxRow = max (ws.maxRow + 1) r := rfl

theorem insert_rows_cells_below (ws : Ws) (idx : Nat) (p : Nat × Nat)
    (h : p.1 < idx) : (insert_rows ws idx).cells p = ws.cells p := by
  show (if p.1 < idx then ws.cells p else _) = ws.cells p
  rw [if_pos h]

theorem cloneRow_cells_below (ws : Ws) (tr r : Nat) (p : Nat × Nat)
    (h : p.1 < r) : (cloneRow ws tr r).cells p = ws.cells p := by
  rw [cloneRow_cells]
  exact insert_rows_cells_below ws r p h

theorem mem_row10merges (tr : Nat) (ms : List CellRange) (m : CellRange) :
    m ∈ row10merges tr ms ↔ m ∈ ms ∧ m.min_row = tr ∧ m.max_row = tr := by
  unfold row10merges
  rw [List.mem_filter]
  simp

theorem mergesFrom_refl (tms : List CellRange) : MergesFrom tms tms :=
  fun m hm => Or.inl hm

theorem mergesFrom_cloneRow (tms : List CellRange) (ws : Ws) (r : Nat)
    (hfrom : MergesFrom tms ws.merges) (hr : 11 ≤ r) :
    MergesFrom tms (cloneRow ws 10 r).merges := by
  rw [cloneRow_merges]
  intro m hm
  rw [List.mem_append] at hm
  rcases hm with h | h
  · exact hfrom m h
  · rw [List.mem_map] at h
    rcases h with ⟨m₀, hm₀, rfl⟩
    rw [mem_row10merges] at hm₀
    rcases hfrom m₀ hm₀.1 with ht | ⟨m₁, hm₁, r', hr', heq⟩
    · right
      refine ⟨m₀, ?_, r, hr, rfl⟩
      rw [mem_row10merges]
      exact ⟨ht, hm₀.2⟩
    · exfalso
      have h10 : m₀.min_row = 10 := hm₀.2.1
      have : m₀.min_row = r' := by rw [heq]; rfl
      omega

theorem row10merges_append (tr : Nat) (xs ys : List CellRange) :
    row10merges tr (xs ++ ys) = row10merges tr xs ++ row10merges tr ys := by
  unfold row10merges
  rw [List.filter_append]

theorem row10merges_clones_nil (idx : Nat) (hidx : 1 ≤ idx)
    (R : List CellRange) :
    row10merges 10 (R.map (fun m => reRow m (10 + idx))) = [] := by
  unfold row10merges
  rw [List.filter_eq_nil_iff]
  intro m hm
  rw [List.mem_map] at hm
  rcases hm with ⟨m₀, _, rfl⟩
  have h1 : (reRow m₀ (10 + idx)).min_row = 10 + idx := rfl
  simp only [decide_eq_true_eq]
  omega

/-- No registered region contains `(r, c0)` for any data row `r ≥ 10`, given
the template shape, the merge-set invariant, and column `c0` free of
template-row merges. -/
theorem mergeFree_data (tms ms : List CellRange) (c0 : Nat)
    (hok : TplMergesOK tms) (hfrom : MergesFrom tms ms)
    (hcf : Row10ColFree tms c0) (r : Nat) (hr : 10 ≤ r) :
    MergeFreeCell ms r c0 := by
  intro m hm
  rw [Bool.eq_false_iff]
  intro hcov
  rw [coversB_true_iff] at hcov
  rcases hfrom m hm with ht | ⟨m₀, hm₀, r', hr', rfl⟩
  · rcases hok m ht with h9 | ⟨h1, h2⟩
    · omega
    · exact hcf m ht h1 h2 ⟨by omega, by omega⟩
  · rw [mem_row10merges] at hm₀
    have e1 : (reRow m₀ r').min_row = r' := rfl
    have e2 : (reRow m₀ r').max_row = r' := rfl
    have e3 : (reRow m₀ r').min_col = m₀.min_col := rfl
    have e4 : (reRow m₀ r').max_col = m₀.max_col := rfl
    exact hcf m₀ hm₀.1 hm₀.2.1 hm₀.2.2 ⟨by omega, by omega⟩

/-- No registered region contains `(7, c)`, given the merge-set invariant
and the template-level freeness of that cell (the clones sit at rows
`≥ 11`). -/
theorem mergeFree_row7 (tms ms : List CellRange) (c : Nat)
    (hfrom : MergesFrom tms ms) (htpl : MergeFreeCell tms 7 c) :
    MergeFreeCell ms 7 c := by
  intro m hm
  rw [Bool.eq_false_iff]
  intro hcov
  rw [coversB_true_iff] at hcov
  rcases hfrom m hm with ht | ⟨m₀, hm₀, r', hr', rfl⟩
  · have := htpl m ht
    rw [Bool.eq_false_iff] at this
    exact this (by rw [coversB_true_iff]; exact hcov)
  · have e1 : (reRow m₀ r').min_row = r' := rfl
    omega

/-! ### Per-item and per-loop lemmas -/

theorem processItemPure_eq (idx : Nat) (item : Item) (n : ItemNums) (ws : Ws) :
    processItemPure idx item n ws =
      applyBanding
        (writeRow (if idx > 0 then cloneRow ws 10 (10 + idx) else ws) (10 + idx)
          (rowVals item n))
        (10 + idx) (if idx % 2 = 0 then grayFill else whiteFill) := rfl

theorem processItemPure_merges (idx : Nat) (item : Item) (n : ItemNums) (ws : Ws) :
    (processItemPure idx item n ws).merges =
      if idx > 0 then
        ws.merges ++ (row10merges 10 ws.merges).map (fun m => reRow m (10 + idx))
      else ws.merges := by
  rw [processItemPure_eq, applyBanding_merges, writeRow_merges]
  by_cases h : idx > 0
  · rw [if_pos h, if_pos h, cloneRow_merges]
  · rw [if_neg h, if_neg h]

theorem mergesFrom_processItemPure (tms : List CellRange) (idx : Nat)
    (item : Item) (n : ItemNums) (ws : Ws) (hfrom : MergesFrom tms ws.merges) :
    MergesFrom tms (processItemPure idx item n ws).merges := by
  rw [processItemPure_merges]
  by_cases h : idx > 0
  · rw [if_pos h]
    have := mergesFrom_cloneRow tms ws (10 + idx) hfrom (by omega)
    rw [cloneRow_merges] at this
    exact this
  · rw [if_neg h]
    exact hfrom

theorem processItemPure_cells_below (tms : List CellRange) (idx : Nat)
    (item : Item) (n : ItemNums) (ws : Ws) (p : Nat × Nat)
    (hok : TplMergesOK tms) (hfrom : MergesFrom tms ws.merges)
    (hp : p.1 < 10 + idx) :
    (processItemPure idx item n ws).cells p = ws.cells p := by
  rw [processItemPure_eq, applyBanding_cells]
  have hfrom1 : MergesFrom tms
      (if idx > 0 then cloneRow ws 10 (10 + idx) else ws).merges := by
    by_cases h : idx > 0
    · rw [if_pos h]
      exact mergesFrom_cloneRow tms ws _ hfrom (by omega)
    · rw [if_neg h]; exact hfrom
  have hwf1 := mergesWF_of tms _ hok hfrom1
  rw [writeRow_cells_offrow _ _ _ _ hwf1 (by omega) (by omega)]
  by_cases h : idx > 0
  · rw [if_pos h]
    exact cloneRow_cells_below ws 10 (10 + idx) p (by omega)
  · rw [if_neg h]

theorem processItemPure_cells_val (tms : List CellRange) (idx : Nat)
    (item : Item) (n : ItemNums) (ws : Ws) (c0 : Nat) (v : JVal)
    (l₁ l₂ : List (Nat × JVal))
    (hok : TplMergesOK tms) (hfrom : MergesFrom tms ws.merges)
    (hcf : Row10ColFree tms c0)
    (hsplit : rowVals item n = l₁ ++ (c0, v) :: l₂)
    (h₂ : ∀ e ∈ l₂, e.1 ≠ c0) :
    (processItemPure idx item n ws).cells (10 + idx, c0) = some v := by
  rw [processItemPure_eq, applyBanding_cells]
  have hfrom1 : MergesFrom tms
      (if idx > 0 then cloneRow ws 10 (10 + idx) else ws).merges := by
    by_cases h : idx > 0
    · rw [if_pos h]
      exact mergesFrom_cloneRow tms ws _ hfrom (by omega)
    · rw [if_neg h]; exact hfrom
  have hfree := mergeFree_data tms _ c0 hok hfrom1 hcf (10 + idx) (by omega)
  rw [hsplit]
  exact writeRow_cells_value _ (10 + idx) c0 v l₁ l₂ hfree h₂

theorem processItemPure_maxRow (idx : Nat) (item : Item) (n : ItemNums) (ws : Ws)
    (h10 : 10 ≤ ws.maxRow) (hidx : 10 + idx ≤ ws.maxRow + 1) :
    (processItemPure idx item n ws).maxRow =
      if idx > 0 then ws.maxRow + 1 else ws.maxRow := by
  rw [processItemPure_eq, applyBanding_maxRow]
  by_cases h : idx > 0
  · rw [if_pos h, if_pos h]
    have hm : (cloneRow ws 10 (10 + idx)).maxRow = ws.maxRow + 1 := by
      rw [cloneRow_maxRow]; omega
    rw [writeRow_maxRow _ _ _ (by rw [hm]; omega), hm]
    omega
  · rw [if_neg h, if_neg h]
    have h0 : idx = 0 := by omega
    subst h0
    rw [writeRow_maxRow _ _ _ (by omega)]
    omega

theorem processItem_eq (idx : Nat) (it : Item) (ws : Ws) :
    processItem idx it ws =
      Except.bind (coerceItem it) (fun n => .ok (processItemPure idx it n ws)) := rfl

theorem processItems_cons_eq (idx : Nat) (it : Item) (rest : List Item) (ws : Ws) :
    processItems idx (it :: rest) ws =
      Except.bind (processItem idx it ws)
        (fun w => processItems (idx + 1) rest w) := rfl

theorem processItems_ok_cons (idx : Nat) (it : Item) (rest : List Item)
    (ws ws' : Ws) :
    processItems idx (it :: rest) ws = .ok ws' ↔
      ∃ n, coerceItem it = .ok n ∧
        processItems (idx + 1) rest (processItemPure idx it n ws) = .ok ws' := by
  rw [processItems_cons_eq, processItem_eq]
  cases hc : coerceItem it with
  | error e =>
      constructor
      · intro h
        exact absurd h (by simp [Except.bind])
      · rintro ⟨n, hn, _⟩
        exact Except.noConfusion hn
  | ok n =>
      constructor
      · intro h
        exact ⟨n, rfl, h⟩
      · rintro ⟨n', hn', h⟩
        cases hn'
        exact h

theorem processItems_nil (idx : Nat) (ws ws' : Ws)
    (h : processItems idx [] ws = .ok ws') : ws' = ws := by
  unfold processItems at h
  cases h
  rfl

theorem processItems_cells_below (tms : List CellRange) (items : List Item)
    (idx : Nat) (ws ws' : Ws) (p : Nat × Nat)
    (hok : TplMergesOK tms) (hfrom : MergesFrom tms ws.merges)
    (h : processItems idx items ws = .ok ws') (hp : p.1 < 10 + idx) :
    ws'.cells p = ws.cells p := by
  induction items generalizing idx ws with
  | nil => rw [processItems_nil idx ws ws' h]
  | cons it rest ih =>
      obtain ⟨n, hn, hrest⟩ := (processItems_ok_cons idx it rest ws ws').mp h
      have hfrom1 := mergesFrom_processItemPure tms idx it n ws hfrom
      have := ih (idx + 1) _ hfrom1 hrest (by omega)
      rw [this]
      exact processItemPure_cells_below tms idx it n ws p hok hfrom hp

theorem mergesFrom_processItems (tms : List CellRange) (items : List Item)
    (idx : Nat) (ws ws' : Ws) (hfrom : MergesFrom tms ws.merges)
    (h : processItems idx items ws = .ok ws') : MergesFrom tms ws'.merges := by
  induction items generalizing idx ws with
  | nil => rw [processItems_nil idx ws ws' h]; exact hfrom
  | cons it rest ih =>
      obtain ⟨n, hn, hrest⟩ := (processItems_ok_cons idx it rest ws ws').mp h
      exact ih (idx + 1) _ (mergesFrom_processItemPure tms idx it n ws hfrom) hrest

theorem processItems_maxRow (items : List Item) (idx : Nat) (ws ws' : Ws)
    (h : processItems idx items ws = .ok ws')
    (h10 : 10 ≤ ws.maxRow) (hidx : 10 + idx ≤ ws.maxRow + 1) :
    ws'.maxRow = ws.maxRow + (if idx = 0 then items.length - 1 else items.length) := by
  induction items generalizing idx ws with
  | nil =>
      rw [processItems_nil idx ws ws' h]
      by_cases h0 : idx = 0 <;> simp [h0]
  | cons it rest ih =>
      obtain ⟨n, hn, hrest⟩ := (processItems_ok_cons idx it rest ws ws').mp h
      have hm := processItemPure_maxRow idx it n ws h10 hidx
      by_cases h0 : idx = 0
      · subst h0
        rw [if_neg (by omega)] at hm
        have := ih 1 _ hrest (by omega) (by omega)
        rw [hm] at this
        rw [this, if_neg (by omega), if_pos rfl]
        simp
      · rw [if_pos (by omega)] at hm
        have := ih (idx + 1) _ hrest (by rw [hm]; omega) (by rw [hm]; omega)
        rw [hm] at this
        rw [this, if_neg (by omega), if_neg h0]
        simp [List.length_cons]
        omega

/-! ### Merge-replication characterization and coercion-success extraction -/

theorem processItems_merges (tms : List CellRange) (items : List Item)
    (idx : Nat) (ws ws' : Ws)
    (hR : row10merges 10 ws.merges = row10merges 10 tms)
    (h : processItems idx items ws = .ok ws') :
    ws'.merges = ws.merges ++ allClones tms (List.range' idx items.length) := by
  induction items generalizing idx ws with
  | nil =>
      rw [processItems_nil idx ws ws' h]
      simp [allClones, List.range']
  | cons it rest ih =>
      obtain ⟨n, hn, hrest⟩ := (processItems_ok_cons idx it rest ws ws').mp h
      have hm1 : (processItemPure idx it n ws).merges =
          ws.merges ++ (if idx = 0 then [] else
            (row10merges 10 tms).map (fun m => reRow m (10 + idx))) := by
        rw [processItemPure_merges]
        by_cases hi : idx > 0
        · rw [if_pos hi, hR, if_neg (by omega)]
        · rw [if_neg hi, if_pos (by omega)]
          simp
      have hR1 : row10merges 10 (processItemPure idx it n ws).merges =
          row10merges 10 tms := by
        rw [hm1, row10merges_append]
        by_cases hi : idx = 0
        · rw [if_pos hi]
          show row10merges 10 ws.merges ++ row10merges 10 [] = _
          rw [hR]
          simp [row10merges]
        · rw [if_neg hi, row10merges_clones_nil idx (by omega), hR]
          simp
      have := ih (idx + 1) _ hR1 hrest
      rw [this, hm1, List.append_assoc]
      rfl

theorem processItems_ok_coerce (items : List Item) (idx : Nat) (ws ws' : Ws)
    (h : processItems idx items ws = .ok ws') :
    ∀ it ∈ items, ∃ n, coerceItem it = .ok n := by
  induction items generalizing idx ws with
  | nil => intro it hit; exact absurd hit (List.not_mem_nil it)
  | cons it0 rest ih =>
      obtain ⟨n, hn, hrest⟩ := (processItems_ok_cons idx it0 rest ws ws').mp h
      intro it hit
      rcases List.mem_cons.mp hit with rfl | hmem
      · exact ⟨n, hn⟩
      · exact ih (idx + 1) _ hrest it hmem

theorem sumFieldAux_ok_getFloat (f : Item → Option JVal) (items : List Item)
    (acc s : Rat) (h : sumFieldAux f acc items = .ok s) :
    ∀ it ∈ items, ∃ q, getFloat (f it) = .ok q := by
  induction items generalizing acc with
  | nil => intro it hit; exact absurd hit (List.not_mem_nil it)
  | cons it0 rest ih =>
      unfold sumFieldAux at h
      cases hg : getFloat (f it0) with
      | error e => rw [hg] at h; exact Except.noConfusion h
      | ok x =>
          rw [hg] at h
          intro it hit
          rcases List.mem_cons.mp hit with rfl | hmem
          · exact ⟨x, hg⟩
          · exact ih (acc + x) h it hmem

theorem sumField_ok_getFloat (f : Item → Option JVal) (items : List Item)
    (s : Rat) (h : sumField items f = .ok s) :
    ∀ it ∈ items, ∃ q, getFloat (f it) = .ok q :=
  sumFieldAux_ok_getFloat f items 0 s h

theorem sumFieldAux_eq (f : Item → Option JVal) (items : List Item)
    (qs : List Rat) (acc : Rat)
    (hq : List.Forall₂ (fun it q => getFloat (f it) = .ok q) items qs) :
    sumFieldAux f acc items = .ok (acc + qs.sum) := by
  induction hq generalizing acc with
  | nil =>
      show Except.ok acc = Except.ok (acc + ([] : List Rat).sum)
      rw [List.sum_nil, add_zero]
  | cons hhead htail ih =>
      unfold sumFieldAux
      rw [hhead]
      show sumFieldAux f _ _ = _
      rw [ih]
      rw [List.sum_cons, add_assoc]

/-- The value of one cross-item sum: with the per-item coerced values in
`qs`, the sum is their total (an absent field contributes `getFloat none = 0`). -/
theorem sumField_eq (f : Item → Option JVal) (items : List Item) (qs : List Rat)
    (hq : List.Forall₂ (fun it q => getFloat (f it) = .ok q) items qs) :
    sumField items f = .ok qs.sum := by
  unfold sumField
  rw [sumFieldAux_eq f items qs 0 hq, zero_add]

/-! ### Scrub-pass lemmas and the bounded-extent invariant -/

theorem scrubRegion_cells_outside (ws : Ws) (rmin rmax cmin cmax : Nat)
    (p : Nat × Nat) (h : ¬ inReg rmin rmax cmin cmax p.1 p.2) :
    (scrubRegion ws rmin rmax cmin cmax).cells p = ws.cells p := by
  show (if _ then none else ws.cells p) = ws.cells p
  rw [if_neg (fun hand => h hand.1)]

theorem scrubRegion_cells_notTruthy (ws : Ws) (rmin rmax cmin cmax : Nat)
    (p : Nat × Nat) (h : inReg rmin rmax cmin cmax p.1 p.2) :
    truthyOpt ((scrubRegion ws rmin rmax cmin cmax).cells p) = false := by
  show truthyOpt (if _ then none else ws.cells p) = false
  by_cases ht : truthyOpt (ws.cells p) = true
  · rw [if_pos ⟨h, ht⟩]; rfl
  · rw [if_neg (fun hand => ht hand.2)]
    exact Bool.eq_false_iff.mpr ht

theorem scrubRegion_cells_none (ws : Ws) (rmin rmax cmin cmax : Nat)
    (p : Nat × Nat) (h : inReg rmin rmax cmin cmax p.1 p.2)
    (h2 : ws.cells p = none ∨ truthyOpt (ws.cells p) = true) :
    (scrubRegion ws rmin rmax cmin cmax).cells p = none := by
  show (if _ then none else ws.cells p) = none
  rcases h2 with hn | ht
  · rw [hn]
    split <;> rfl
  · rw [if_pos ⟨h, ht⟩]

theorem scrubRegion_keeps_notTruthy (ws : Ws) (rmin rmax cmin cmax : Nat)
    (p : Nat × Nat) (h : truthyOpt (ws.cells p) = false) :
    truthyOpt ((scrubRegion ws rmin rmax cmin cmax).cells p) = false := by
  show truthyOpt (if _ then none else ws.cells p) = false
  split
  · rfl
  · exact h

theorem scrubRegion_keeps_none (ws : Ws) (rmin rmax cmin cmax : Nat)
    (p : Nat × Nat) (h : ws.cells p = none) :
    (scrubRegion ws rmin rmax cmin cmax).cells p = none := by
  show (if _ then none else ws.cells p) = none
  rw [h]
  split <;> rfl

theorem scrubRegion_fills_in (ws : Ws) (rmin rmax cmin cmax : Nat)
    (p : Nat × Nat) (h : inReg rmin rmax cmin cmax p.1 p.2) :
    (scrubRegion ws rmin rmax cmin cmax).fills p = Fill.noFill := by
  show (if _ then Fill.noFill else ws.fills p) = Fill.noFill
  rw [if_pos h]

theorem scrubRegion_keeps_noFill (ws : Ws) (rmin rmax cmin cmax : Nat)
    (p : Nat × Nat) (h : ws.fills p = Fill.noFill) :
    (scrubRegion ws rmin rmax cmin cmax).fills p = Fill.noFill := by
  show (if _ then Fill.noFill else ws.fills p) = Fill.noFill
  split
  · rfl
  · exact h

theorem scrubRegion_borders_in (ws : Ws) (rmin rmax cmin cmax : Nat)
    (p : Nat × Nat) (h : inReg rmin rmax cmin cmax p.1 p.2) :
    (scrubRegion ws rmin rmax cmin cmax).borders p = Bord.empty := by
  show (if _ then Bord.empty else ws.borders p) = Bord.empty
  rw [if_pos h]

theorem scrubRegion_keeps_empty (ws : Ws) (rmin rmax cmin cmax : Nat)
    (p : Nat × Nat) (h : ws.borders p = Bord.empty) :
    (scrubRegion ws rmin rmax cmin cmax).borders p = Bord.empty := by
  show (if _ then Bord.empty else ws.borders p) = Bord.empty
  split
  · rfl
  · exact h

theorem scrubRegion_maxRow (ws : Ws) (rmin rmax cmin cmax : Nat) :
    (scrubRegion ws rmin rmax cmin cmax).maxRow = ws.maxRow := rfl

theorem scrubRegion_cfRules (ws : Ws) (rmin rmax cmin cmax : Nat) :
    (scrubRegion ws rmin rmax cmin cmax).cfRules = ws.cfRules := rfl

theorem scrubRegion_merges (ws : Ws) (rmin rmax cmin cmax : Nat) :
    (scrubRegion ws rmin rmax cmin cmax).merges = ws.merges := rfl

theorem addCF_cells (ws : Ws) (rmin rmax cmin cmax : Nat) :
    (addCF ws rmin rmax cmin cmax).cells = ws.cells := rfl

theorem addCF_fills (ws : Ws) (rmin rmax cmin cmax : Nat) :
    (addCF ws rmin rmax cmin cmax).fills = ws.fills := rfl

theorem addCF_borders (ws : Ws) (rmin rmax cmin cmax : Nat) :
    (addCF ws rmin rmax cmin cmax).borders = ws.borders := rfl

theorem addCF_maxRow (ws : Ws) (rmin rmax cmin cmax : Nat) :
    (addCF ws rmin rmax cmin cmax).maxRow = ws.maxRow := rfl

theorem addCF_merges (ws : Ws) (rmin rmax cmin cmax : Nat) :
    (addCF ws rmin rmax cmin cmax).merges = ws.merges := rfl

theorem bounded_writeCell (ws : Ws) (r c : Nat) (v : JVal) (hb : Bounded ws) :
    Bounded (writeCell ws r c v) := by
  intro p hp
  have hmr : (writeCell ws r c v).maxRow = max ws.maxRow r := rfl
  rw [hmr] at hp
  have h1 := hb p (by omega)
  refine ⟨?_, h1.2.1, h1.2.2⟩
  rw [writeCell_cells, if_neg, h1.1]
  intro he
  have : p.1 = r := by rw [he]
  omega

theorem bounded_scv (ws : Ws) (r c : Nat) (v : JVal) (hb : Bounded ws) :
    Bounded (set_cell_value ws r c v) := by
  rw [set_cell_value_eq_writeCell]
  exact bounded_writeCell ws _ _ v hb

theorem bounded_writeRow (ws : Ws) (r : Nat) (l : List (Nat × JVal))
    (hb : Bounded ws) : Bounded (writeRow ws r l) := by
  induction l generalizing ws with
  | nil => exact hb
  | cons e rest ih => rw [writeRow_cons]; exact ih _ (bounded_scv ws r e.1 e.2 hb)

theorem bounded_writeCells (ws : Ws) (l : List (Nat × Nat × JVal))
    (hb : Bounded ws) : Bounded (writeCells ws l) := by
  induction l generalizing ws with
  | nil => exact hb
  | cons e rest ih =>
      rw [writeCells_cons]
      exact ih _ (bounded_scv ws e.1 e.2.1 e.2.2 hb)

theorem bounded_cloneRow (ws : Ws) (tr r : Nat) (hb : Bounded ws) :
    Bounded (cloneRow ws tr r) := by
  intro p hp
  rw [cloneRow_maxRow] at hp
  have hne : p.1 ≠ r := by omega
  have hgt : ws.maxRow + 1 < p.1 := by omega
  constructor
  · show (if p.1 < r then ws.cells p else if p.1 = r then none
      else ws.cells (p.1 - 1, p.2)) = none
    rw [if_neg (by omega), if_neg hne]
    exact (hb (p.1 - 1, p.2) (by omega)).1
  constructor
  · show (if p.1 = r ∧ 1 ≤ p.2 ∧ p.2 ≤ 30 ∧ _ then _ else
      (if p.1 < r then ws.fills p else if p.1 = r then Fill.noFill
        else ws.fills (p.1 - 1, p.2))) = Fill.noFill
    rw [if_neg (fun hand => hne hand.1), if_neg (by omega), if_neg hne]
    exact (hb (p.1 - 1, p.2) (by omega)).2.1
  · show (if p.1 = r ∧ 1 ≤ p.2 ∧ p.2 ≤ 30 ∧ _ then _ else
      (if p.1 < r then ws.borders p else if p.1 = r then Bord.empty
        else ws.borders (p.1 - 1, p.2))) = Bord.empty
    rw [if_neg (fun hand => hne hand.1), if_neg (by omega), if_neg hne]
    exact (hb (p.1 - 1, p.2) (by omega)).2.2

theorem bounded_applyBanding (ws : Ws) (r : Nat) (f : Fill) (hb : Bounded ws) :
    Bounded (applyBanding ws r f) := by
  intro p hp
  rw [applyBanding_maxRow] at hp
  have h1 := hb p (by omega)
  refine ⟨h1.1, ?_, h1.2.2⟩
  show (if p.1 = r ∧ _ ∧ _ then f else ws.fills p) = Fill.noFill
  rw [if_neg (fun hand => by omega)]
  exact h1.2.1

theorem bounded_processItemPure (idx : Nat) (item : Item) (n : ItemNums)
    (ws : Ws) (hb : Bounded ws) : Bounded (processItemPure idx item n ws) := by
  rw [processItemPure_eq]
  apply bounded_applyBanding
  apply bounded_writeRow
  by_cases h : idx > 0
  · rw [if_pos h]; exact bounded_cloneRow ws 10 (10 + idx) hb
  · rw [if_neg h]; exact hb

theorem bounded_processItems (items : List Item) (idx : Nat) (ws ws' : Ws)
    (hb : Bounded ws) (h : processItems idx items ws = .ok ws') : Bounded ws' := by
  induction items generalizing idx ws with
  | nil => rw [processItems_nil idx ws ws' h]; exact hb
  | cons it rest ih =>
      obtain ⟨n, hn, hrest⟩ := (processItems_ok_cons idx it rest ws ws').mp h
      exact ih (idx + 1) _ (bounded_processItemPure idx it n ws hb) hrest

theorem bounded_scrubRegion (ws : Ws) (rmin rmax cmin cmax : Nat)
    (hb : Bounded ws) : Bounded (scrubRegion ws rmin rmax cmin cmax) := by
  intro p hp
  rw [scrubRegion_maxRow] at hp
  have h1 := hb p hp
  refine ⟨scrubRegion_keeps_none _ _ _ _ _ _ h1.1,
    scrubRegion_keeps_noFill _ _ _ _ _ _ h1.2.1,
    scrubRegion_keeps_empty _ _ _ _ _ _ h1.2.2⟩

theorem bounded_addCF (ws : Ws) (rmin rmax cmin cmax : Nat) (hb : Bounded ws) :
    Bounded (addCF ws rmin rmax cmin cmax) := by
  intro p hp
  exact hb p hp

/-! ### scrubAll-level lemmas -/

theorem scrubAll_eq (ws : Ws) (ldr : Nat) :
    scrubAll ws ldr =
      addCF
        (scrubRegion
          (addCF
            (scrubRegion
              (addCF (scrubRegion ws (ldr + 1) (min ws.maxRow 6000) 1 30)
                (ldr + 1) 6000 1 30)
              1 7 29 78)
            1 7 29 78)
          1 (min ws.maxRow 6000) 31 78)
        1 6000 31 78 := rfl

theorem scrubAll_maxRow (ws : Ws) (ldr : Nat) :
    (scrubAll ws ldr).maxRow = ws.maxRow := rfl

theorem scrubAll_merges (ws : Ws) (ldr : Nat) :
    (scrubAll ws ldr).merges = ws.merges := rfl

theorem scrubAll_cfRules (ws : Ws) (ldr : Nat) :
    (scrubAll ws ldr).cfRules =
      ws.cfRules ++ [⟨ldr + 1, 6000, 1, 30, true⟩, ⟨1, 7, 29, 78, true⟩,
        ⟨1, 6000, 31, 78, true⟩] := by
  rw [scrubAll_eq]
  show ((ws.cfRules ++ _) ++ _) ++ _ = _
  rw [List.append_assoc, List.append_assoc]
  rfl

theorem scrubAll_cells_keep (ws : Ws) (ldr : Nat) (p : Nat × Nat)
    (h1 : ¬ inReg (ldr + 1) 6000 1 30 p.1 p.2)
    (h2 : ¬ inReg 1 7 29 78 p.1 p.2)
    (h3 : ¬ inReg 1 6000 31 78 p.1 p.2) :
    (scrubAll ws ldr).cells p = ws.cells p := by
  rw [scrubAll_eq, addCF_cells]
  rw [scrubRegion_cells_outside _ _ _ _ _ p
    (fun hin => h3 ⟨hin.1, le_trans hin.2.1 (min_le_right _ _), hin.2.2⟩)]
  rw [addCF_cells, scrubRegion_cells_outside _ _ _ _ _ p h2]
  rw [addCF_cells]
  exact scrubRegion_cells_outside _ _ _ _ _ p
    (fun hin => h1 ⟨hin.1, le_trans hin.2.1 (min_le_right _ _), hin.2.2⟩)

theorem scrubAll_cells_reg1_none (ws : Ws) (ldr : Nat) (p : Nat × Nat)
    (hb : Bounded ws) (hnt : ws.cells p = none ∨ truthyOpt (ws.cells p) = true)
    (hin : inReg (ldr + 1) 6000 1 30 p.1 p.2) :
    (scrubAll ws ldr).cells p = none := by
  rw [scrubAll_eq, addCF_cells]
  apply scrubRegion_keeps_none
  rw [addCF_cells]
  apply scrubRegion_keeps_none
  rw [addCF_cells]
  by_cases hple : p.1 ≤ min ws.maxRow 6000
  · exact scrubRegion_cells_none ws _ _ _ _ p
      ⟨hin.1, hple, hin.2.2⟩ hnt
  · have hgt : ws.maxRow < p.1 := by
      have := hin.2.1
      omega
    apply scrubRegion_keeps_none
    exact (hb p hgt).1

theorem scrubAll_cells_reg1_notTruthy (ws : Ws) (ldr : Nat) (p : Nat × Nat)
    (hb : Bounded ws) (hin : inReg (ldr + 1) 6000 1 30 p.1 p.2) :
    truthyOpt ((scrubAll ws ldr).cells p) = false := by
  rw [scrubAll_eq, addCF_cells]
  apply scrubRegion_keeps_notTruthy
  rw [addCF_cells]
  apply scrubRegion_keeps_notTruthy
  rw [addCF_cells]
  by_cases hple : p.1 ≤ min ws.maxRow 6000
  · exact scrubRegion_cells_notTruthy ws _ _ _ _ p ⟨hin.1, hple, hin.2.2⟩
  · have hgt : ws.maxRow < p.1 := by
      have := hin.2.1
      omega
    apply scrubRegion_keeps_notTruthy
    rw [(hb p hgt).1]
    rfl

theorem scrubAll_cells_reg2_notTruthy (ws : Ws) (ldr : Nat) (p : Nat × Nat)
    (hin : inReg 1 7 29 78 p.1 p.2) :
    truthyOpt ((scrubAll ws ldr).cells p) = false := by
  rw [scrubAll_eq, addCF_cells]
  apply scrubRegion_keeps_notTruthy
  rw [addCF_cells]
  exact scrubRegion_cells_notTruthy _ _ _ _ _ p hin

theorem scrubAll_cells_reg3_notTruthy (ws : Ws) (ldr : Nat) (p : Nat × Nat)
    (hb : Bounded ws) (hin : inReg 1 6000 31 78 p.1 p.2) :
    truthyOpt ((scrubAll ws ldr).cells p) = false := by
  rw [scrubAll_eq, addCF_cells]
  by_cases hple : p.1 ≤ min ws.maxRow 6000
  · exact scrubRegion_cells_notTruthy _ _ _ _ _ p ⟨hin.1, hple, hin.2.2⟩
  · have hgt : ws.maxRow < p.1 := by
      have := hin.2.1
      omega
    apply scrubRegion_keeps_notTruthy
    rw [addCF_cells]
    apply scrubRegion_keeps_notTruthy
    rw [addCF_cells]
    apply scrubRegion_keeps_notTruthy
    rw [(hb p hgt).1]
    rfl

theorem scrubAll_styles_reg1 (ws : Ws) (ldr : Nat) (p : Nat × Nat)
    (hb : Bounded ws) (hin : inReg (ldr + 1) 6000 1 30 p.1 p.2) :
    (scrubAll ws ldr).borders p = Bord.empty ∧
      (scrubAll ws ldr).fills p = Fill.noFill := by
  rw [scrubAll_eq]
  constructor
  · rw [addCF_borders]
    apply scrubRegion_keeps_empty
    rw [addCF_borders]
    apply scrubRegion_keeps_empty
    rw [addCF_borders]
    by_cases hple : p.1 ≤ min ws.maxRow 6000
    · exact scrubRegion_borders_in ws _ _ _ _ p ⟨hin.1, hple, hin.2.2⟩
    · have hgt : ws.maxRow < p.1 := by
        have := hin.2.1
        omega
      apply scrubRegion_keeps_empty
      exact (hb p hgt).2.2
  · rw [addCF_fills]
    apply scrubRegion_keeps_noFill
    rw [addCF_fills]
    apply scrubRegion_keeps_noFill
    rw [addCF_fills]
    by_cases hple : p.1 ≤ min ws.maxRow 6000
    · exact scrubRegion_fills_in ws _ _ _ _ p ⟨hin.1, hple, hin.2.2⟩
    · have hgt : ws.maxRow < p.1 := by
        have := hin.2.1
        omega
      apply scrubRegion_keeps_noFill
      exact (hb p hgt).2.1

theorem scrubAll_styles_reg2 (ws : Ws) (ldr : Nat) (p : Nat × Nat)
    (hin : inReg 1 7 29 78 p.1 p.2) :
    (scrubAll ws ldr).borders p = Bord.empty ∧
      (scrubAll ws ldr).fills p = Fill.noFill := by
  rw [scrubAll_eq]
  constructor
  · rw [addCF_borders]
    apply scrubRegion_keeps_empty
    rw [addCF_borders]
    exact scrubRegion_borders_in _ _ _ _ _ p hin
  · rw [addCF_fills]
    apply scrubRegion_keeps_noFill
    rw [addCF_fills]
    exact scrubRegion_fills_in _ _ _ _ _ p hin

theorem scrubAll_styles_reg3 (ws : Ws) (ldr : Nat) (p : Nat × Nat)
    (hb : Bounded ws) (hin : inReg 1 6000 31 78 p.1 p.2) :
    (scrubAll ws ldr).borders p = Bord.empty ∧
      (scrubAll ws ldr).fills p = Fill.noFill := by
  rw [scrubAll_eq]
  by_cases hple : p.1 ≤ min ws.maxRow 6000
  · constructor
    · rw [addCF_borders]
      exact scrubRegion_borders_in _ _ _ _ _ p ⟨hin.1, hple, hin.2.2⟩
    · rw [addCF_fills]
      exact scrubRegion_fills_in _ _ _ _ _ p ⟨hin.1, hple, hin.2.2⟩
  · have hgt : ws.maxRow < p.1 := by
      have := hin.2.1
      omega
    constructor
    · rw [addCF_borders]
      apply scrubRegion_keeps_empty
      rw [addCF_borders]
      apply scrubRegion_keeps_empty
      rw [addCF_borders]
      apply scrubRegion_keeps_empty
      exact (hb p hgt).2.2
    · rw [addCF_fills]
      apply scrubRegion_keeps_noFill
      rw [addCF_fills]
      apply scrubRegion_keeps_noFill
      rw [addCF_fills]
      apply scrubRegion_keeps_noFill
      exact (hb p hgt).2.1

/-! ### Export-pipeline decomposition -/

theorem writeHeaderBlock_ok_eq (tpl : Ws) (cal : Calc) (tv tc ic sc cr : Rat)
    (tq : Int)
    (h1 : getFloat cal.total_value = .ok tv)
    (h2 : getInt cal.total_quantity = .ok tq)
    (h3 : getFloat cal.transport_cost = .ok tc)
    (h4 : getFloat cal.insurance_cost = .ok ic)
    (h5 : getFloat cal.storage_cost = .ok sc)
    (h6 : getFloat cal.currency_rate = .ok cr) :
    writeHeaderBlock tpl cal = .ok (writeCells tpl
      [(2, 2, jget cal.invoice_no (.jstr "")),
       (4, 2, formatInvoiceDate cal.invoice_date),
       (2, 3, .jstr "TOTAL VALUE"),
       (2, 4, .jnum tv),
       (4, 4, .jnum (tq : Rat)),
       (2, 5, .jstr "TRANSPORT COST"),
       (4, 5, .jstr "INSURANCE COST"),
       (2, 7, .jstr "STORAGE COST"),
       (4, 7, .jstr "CURRENCY -USD/TL-"),
       (2, 6, .jnum tc),
       (4, 6, .jnum ic),
       (2, 8, .jnum sc),
       (4, 8, .jnum cr)]) := by
  unfold writeHeaderBlock
  rw [h1, h2, h3, h4, h5, h6]
  rfl

theorem writeHeaderBlock_ok_shape (tpl : Ws) (cal : Calc) (wsH : Ws)
    (h : writeHeaderBlock tpl cal = .ok wsH) :
    ∃ l : List (Nat × Nat × JVal), wsH = writeCells tpl l ∧
      ∀ e ∈ l, e.1 = 2 ∨ e.1 = 4 := by
  cases h1 : getFloat cal.total_value with
  | error e =>
      rw [show writeHeaderBlock tpl cal = .error e by
        unfold writeHeaderBlock; rw [h1]; rfl] at h
      exact Except.noConfusion h
  | ok tv =>
  cases h2 : getInt cal.total_quantity with
  | error e =>
      rw [show writeHeaderBlock tpl cal = .error e by
        unfold writeHeaderBlock; rw [h1, h2]; rfl] at h
      exact Except.noConfusion h
  | ok tq =>
  cases h3 : getFloat cal.transport_cost with
  | error e =>
      rw [show writeHeaderBlock tpl cal = .error e by
        unfold writeHeaderBlock; rw [h1, h2, h3]; rfl] at h
      exact Except.noConfusion h
  | ok tc =>
  cases h4 : getFloat cal.insurance_cost with
  | error e =>
      rw [show writeHeaderBlock tpl cal = .error e by
        unfold writeHeaderBlock; rw [h1, h2, h3, h4]; rfl] at h
      exact Except.noConfusion h
  | ok ic =>
  cases h5 : getFloat cal.storage_cost with
  | error e =>
      rw [show writeHeaderBlock tpl cal = .error e by
        unfold writeHeaderBlock; rw [h1, h2, h3, h4, h5]; rfl] at h
      exact Except.noConfusion h
  | ok sc =>
  cases h6 : getFloat cal.currency_rate with
  | error e =>
      rw [show writeHeaderBlock tpl cal = .error e by
        unfold writeHeaderBlock; rw [h1, h2, h3, h4, h5, h6]; rfl] at h
      exact Except.noConfusion h
  | ok cr =>
  rw [writeHeaderBlock_ok_eq tpl cal tv tc ic sc cr tq h1 h2 h3 h4 h5 h6] at h
  rw [Except.ok.injEq] at h
  subst h
  refine ⟨_, rfl, ?_⟩
  intro e he
  simp only [List.mem_cons, List.not_mem_nil, or_false] at he
  rcases he with rfl | rfl | rfl | rfl | rfl | rfl | rfl | rfl | rfl | rfl | rfl | rfl | rfl <;>
    simp

theorem writeSummaryBlock_ok_eq (wsH : Ws) (items : List Item)
    (t1 t2 t3 t4 t5 t6 : Rat)
    (h1 : sumField items Item.customs_tax = .ok t1)
    (h2 : sumField items Item.additional_customs_tax = .ok t2)
    (h3 : sumField items Item.kkdf = .ok t3)
    (h4 : sumField items Item.vat = .ok t4)
    (h5 : sumField items Item.total_tax_usd = .ok t5)
    (h6 : sumField items Item.total_tax_tl = .ok t6) :
    writeSummaryBlock wsH items =
      .ok (writeCells wsH (summaryL t1 t2 t3 t4 t5 t6)) := by
  unfold writeSummaryBlock
  rw [h1, h2, h3, h4, h5, h6]
  rfl

theorem writeSummaryBlock_ok_shape (wsH : Ws) (items : List Item) (wsS : Ws)
    (h : writeSummaryBlock wsH items = .ok wsS) :
    ∃ t1 t2 t3 t4 t5 t6 : Rat,
      sumField items Item.customs_tax = .ok t1 ∧
      sumField items Item.additional_customs_tax = .ok t2 ∧
      sumField items Item.kkdf = .ok t3 ∧
      sumField items Item.vat = .ok t4 ∧
      sumField items Item.total_tax_usd = .ok t5 ∧
      sumField items Item.total_tax_tl = .ok t6 ∧
      wsS = writeCells wsH (summaryL t1 t2 t3 t4 t5 t6) := by
  cases h1 : sumField items Item.customs_tax with
  | error e =>
      rw [show writeSummaryBlock wsH items = .error e by
        unfold writeSummaryBlock; rw [h1]; rfl] at h
      exact Except.noConfusion h
  | ok t1 =>
  cases h2 : sumField items Item.additional_customs_tax with
  | error e =>
      rw [show writeSummaryBlock wsH items = .error e by
        unfold writeSummaryBlock; rw [h1, h2]; rfl] at h
      exact Except.noConfusion h
  | ok t2 =>
  cases h3 : sumField items Item.kkdf with
  | error e =>
      rw [show writeSummaryBlock wsH items = .error e by
        unfold writeSummaryBlock; rw [h1, h2, h3]; rfl] at h
      exact Except.noConfusion h
  | ok t3 =>
  cases h4 : sumField items Item.vat with
  | error e =>
      rw [show writeSummaryBlock wsH items = .error e by
        unfold writeSummaryBlock; rw [h1, h2, h3, h4]; rfl] at h
      exact Except.noConfusion h
  | ok t4 =>
  cases h5 : sumField items Item.total_tax_usd with
  | error e =>
      rw [show writeSummaryBlock wsH items = .error e by
        unfold writeSummaryBlock; rw [h1, h2, h3, h4, h5]; rfl] at h
      exact Except.noConfusion h
  | ok t5 =>
  cases h6 : sumField items Item.total_tax_tl with
  | error e =>
      rw [show writeSummaryBlock wsH items = .error e by
        unfold writeSummaryBlock; rw [h1, h2, h3, h4, h5, h6]; rfl] at h
      exact Except.noConfusion h
  | ok t6 =>
  rw [writeSummaryBlock_ok_eq wsH items t1 t2 t3 t4 t5 t6 h1 h2 h3 h4 h5 h6] at h
  rw [Except.ok.injEq] at h
  subst h
  exact ⟨t1, t2, t3, t4, t5, t6, rfl, rfl, rfl, rfl, rfl, rfl, rfl⟩

theorem export_excel_ok_shape (tpl : Ws) (data : ExcelData) (ws : Ws)
    (h : export_excel tpl data = .ok ws) :
    ∃ wsH wsS wsL : Ws,
      writeHeaderBlock tpl data.calculation = .ok wsH ∧
      writeSummaryBlock wsH data.items = .ok wsS ∧
      processItems 0 data.items (writeColHeaders wsS) = .ok wsL ∧
      ws = scrubAll wsL (10 + data.items.length - 1) := by
  cases hH : writeHeaderBlock tpl data.calculation with
  | error e =>
      rw [show export_excel tpl data = .error e by
        unfold export_excel; rw [hH]; rfl] at h
      exact Except.noConfusion h
  | ok wsH =>
  cases hS : writeSummaryBlock wsH data.items with
  | error e =>
      rw [show export_excel tpl data = .error e by
        unfold export_excel; rw [hH]
        show Except.bind (writeSummaryBlock wsH data.items) _ = _
        rw [hS]; rfl] at h
      exact Except.noConfusion h
  | ok wsS =>
  cases hL : processItems 0 data.items (writeColHeaders wsS) with
  | error e =>
      rw [show export_excel tpl data = .error e by
        unfold export_excel; rw [hH]
        show Except.bind (writeSummaryBlock wsH data.items) _ = _
        rw [hS]
        show Except.bind (processItems 0 data.items (writeColHeaders wsS)) _ = _
        rw [hL]; rfl] at h
      exact Except.noConfusion h
  | ok wsL =>
  rw [show export_excel tpl data =
      .ok (scrubAll wsL (10 + data.items.length - 1)) by
    unfold export_excel; rw [hH]
    show Except.bind (writeSummaryBlock wsH data.items) _ = _
    rw [hS]
    show Except.bind (processItems 0 data.items (writeColHeaders wsS)) _ = _
    rw [hL]; rfl] at h
  rw [Except.ok.injEq] at h
  subst h
  exact ⟨wsH, wsS, wsL, rfl, hS, hL, rfl⟩

theorem except_bind_ok {α β : Type} (x : Except String α) (f : α → Except String β)
    (b : β) (h : Except.bind x f = .ok b) : ∃ a, x = .ok a ∧ f a = .ok b := by
  cases x with
  | error e => exact Except.noConfusion h
  | ok a => exact ⟨a, rfl, h⟩

theorem coerceItem_ok_fields (item : Item) (n : ItemNums)
    (h : coerceItem item = .ok n) :
    reqString item.requirements = .ok n.req ∧
    getFloat item.cost = .ok n.cost ∧
    getInt item.unit_count = .ok n.unitCount ∧
    getFloat item.total_value = .ok n.totalValue ∧
    getFloat item.transport_share = .ok n.transportShare ∧
    getFloat item.insurance_share = .ok n.insuranceShare ∧
    getFloat item.storage_share = .ok n.storageShare ∧
    getFloat item.customs_tax = .ok n.customsTax ∧
    getFloat item.additional_customs_tax = .ok n.addCustomsTax ∧
    getFloat item.kkdf = .ok n.kkdf ∧
    getFloat item.vat = .ok n.vat ∧
    getFloat item.total_tax_usd = .ok n.totalTaxUsd ∧
    getFloat item.vat_base = .ok n.vatBase ∧
    (∀ hs, item.hs_code_data = some hs →
      getFloat hs.customs_tax_percent = .ok n.customsTaxPercent ∧
      getFloat hs.additional_customs_tax_percent = .ok n.addCustomsTaxPercent ∧
      getFloat hs.kkdf_percent = .ok n.kkdfPercent ∧
      getFloat hs.vat_percent = .ok n.vatPercentCell ∧
      getFloat hs.vat_percent = .ok n.vatPercent) ∧
    (item.hs_code_data = none →
      n.customsTaxPercent = 0 ∧ n.addCustomsTaxPercent = 0 ∧
      n.kkdfPercent = 0 ∧ n.vatPercentCell = 0 ∧ n.vatPercent = 0) := by
  unfold coerceItem at h
  obtain ⟨req, hreq, h⟩ := except_bind_ok _ _ _ h
  beta_reduce at h
  obtain ⟨cost, hcost, h⟩ := except_bind_ok _ _ _ h
  beta_reduce at h
  obtain ⟨uc, huc, h⟩ := except_bind_ok _ _ _ h
  beta_reduce at h
  obtain ⟨tv, htv, h⟩ := except_bind_ok _ _ _ h
  beta_reduce at h
  obtain ⟨ts, hts, h⟩ := except_bind_ok _ _ _ h
  beta_reduce at h
  obtain ⟨ins, hins, h⟩ := except_bind_ok _ _ _ h
  beta_reduce at h
  obtain ⟨ss, hss, h⟩ := except_bind_ok _ _ _ h
  beta_reduce at h
  cases hhs : item.hs_code_data with
  | none =>
      rw [hhs] at h
      obtain ⟨quad, hquad, h⟩ := except_bind_ok _ _ _ h
      cases hquad
      beta_reduce at h
      obtain ⟨ct, hct, h⟩ := except_bind_ok _ _ _ h
      beta_reduce at h
      obtain ⟨act, hact, h⟩ := except_bind_ok _ _ _ h
      beta_reduce at h
      obtain ⟨kk, hkk, h⟩ := except_bind_ok _ _ _ h
      beta_reduce at h
      obtain ⟨vt, hvt, h⟩ := except_bind_ok _ _ _ h
      beta_reduce at h
      obtain ⟨ttu, httu, h⟩ := except_bind_ok _ _ _ h
      beta_reduce at h
      obtain ⟨vb, hvb, h⟩ := except_bind_ok _ _ _ h
      beta_reduce at h
      obtain ⟨vp, hvp, h⟩ := except_bind_ok _ _ _ h
      cases hvp
      beta_reduce at h
      cases h
      refine ⟨hreq, hcost, huc, htv, hts, hins, hss, hct, hact, hkk, hvt, httu, hvb, ?_, ?_⟩
      · intro hs hc
        exact Option.noConfusion hc
      · intro _
        exact ⟨rfl, rfl, rfl, rfl, rfl⟩
  | some hs =>
      rw [hhs] at h
      obtain ⟨ctp, hctp, h⟩ := except_bind_ok _ _ _ h
      beta_reduce at h
      obtain ⟨actp, hactp, h⟩ := except_bind_ok _ _ _ h
      beta_reduce at h
      obtain ⟨kkp, hkkp, h⟩ := except_bind_ok _ _ _ h
      beta_reduce at h
      obtain ⟨vtp, hvtp, h⟩ := except_bind_ok _ _ _ h
      beta_reduce at h
      obtain ⟨quad, hquad, h⟩ := except_bind_ok _ _ _ h
      cases hquad
      beta_reduce at h
      obtain ⟨ct, hct, h⟩ := except_bind_ok _ _ _ h
      beta_reduce at h
      obtain ⟨act, hact, h⟩ := except_bind_ok _ _ _ h
      beta_reduce at h
      obtain ⟨kk, hkk, h⟩ := except_bind_ok _ _ _ h
      beta_reduce at h
      obtain ⟨vt, hvt, h⟩ := except_bind_ok _ _ _ h
      beta_reduce at h
      obtain ⟨ttu, httu, h⟩ := except_bind_ok _ _ _ h
      beta_reduce at h
      obtain ⟨vb, hvb, h⟩ := except_bind_ok _ _ _ h
      beta_reduce at h
      obtain ⟨vp, hvp, h⟩ := except_bind_ok _ _ _ h
      beta_reduce at h
      cases h
      refine ⟨hreq, hcost, huc, htv, hts, hins, hss, hct, hact, hkk, hvt, httu, hvb, ?_, ?_⟩
      · intro hs' hc
        rw [Option.some.injEq] at hc
        subst hc
        exact ⟨hctp, hactp, hkkp, hvtp, hvp⟩
      · intro hc
        exact Option.noConfusion hc

/-! ### BEYANNAME exporter lemmas -/

theorem bwrite_cells (ws : BWs) (r c : Nat) (v : JVal) (p : Nat × Nat) :
    (bwrite ws r c v).cells p = if p = (r, c) then some v else ws.cells p := rfl

theorem bsetFmt_cells (ws : BWs) (r c : Nat) (f : String) :
    (bsetFmt ws r c f).cells = ws.cells := rfl

theorem bwriteRow_cons (ws : BWs) (r : Nat) (e : Nat × JVal) (l : List (Nat × JVal)) :
    bwriteRow ws r (e :: l) = bwriteRow (bwrite ws r e.1 e.2) r l := rfl

theorem bwriteRow_cells_offrow (ws : BWs) (r : Nat) (l : List (Nat × JVal))
    (p : Nat × Nat) (hp : p.1 ≠ r) : (bwriteRow ws r l).cells p = ws.cells p := by
  induction l generalizing ws with
  | nil => rfl
  | cons e rest ih =>
      rw [bwriteRow_cons, ih]
      rw [bwrite_cells, if_neg]
      intro hc
      exact hp (by rw [hc])

theorem bwriteRow_cells_nocol (ws : BWs) (r : Nat) (l : List (Nat × JVal))
    (c0 : Nat) (h : ∀ e ∈ l, e.1 ≠ c0) :
    (bwriteRow ws r l).cells (r, c0) = ws.cells (r, c0) := by
  induction l generalizing ws with
  | nil => rfl
  | cons e rest ih =>
      rw [bwriteRow_cons, ih _ (fun e' he' => h e' (List.mem_cons_of_mem _ he'))]
      rw [bwrite_cells, if_neg]
      intro hc
      have : c0 = e.1 := congrArg Prod.snd hc
      exact h e (List.mem_cons_self _ _) this.symm

theorem bwriteRow_cells_value (ws : BWs) (r c0 : Nat) (v : JVal)
    (l₁ l₂ : List (Nat × JVal)) (h₂ : ∀ e ∈ l₂, e.1 ≠ c0) :
    (bwriteRow ws r (l₁ ++ (c0, v) :: l₂)).cells (r, c0) = some v := by
  have happ : bwriteRow ws r (l₁ ++ (c0, v) :: l₂) =
      bwriteRow (bwriteRow ws r l₁) r ((c0, v) :: l₂) := by
    unfold bwriteRow
    rw [List.foldl_append]
  rw [happ, bwriteRow_cons, bwriteRow_cells_nocol _ _ _ _ h₂]
  rw [bwrite_cells, if_pos rfl]

theorem processBeyItem_ok_shape (custom : List (String × String)) (idx : Nat)
    (item : Item) (ws ws' : BWs) (h : processBeyItem custom idx item ws = .ok ws') :
    ∃ n : BeyNums, coerceBeyItem custom item = .ok n ∧
      ws' = bsetFmt (bwriteRow ws (2 + idx) (beyRowVals item n)) (2 + idx) 3 "@" := by
  unfold processBeyItem at h
  obtain ⟨n, hn, h⟩ := except_bind_ok _ _ _ h
  beta_reduce at h
  cases h
  exact ⟨n, hn, rfl⟩

theorem coerceBeyItem_ok_fields (custom : List (String × String)) (item : Item)
    (n : BeyNums) (h : coerceBeyItem custom item = .ok n) :
    getFloat item.cost = .ok n.cost ∧ getInt item.unit_count = .ok n.uc := by
  unfold coerceBeyItem at h
  obtain ⟨cost, hcost, h⟩ := except_bind_ok _ _ _ h
  beta_reduce at h
  obtain ⟨uc, huc, h⟩ := except_bind_ok _ _ _ h
  beta_reduce at h
  cases hhs : item.hs_code_data with
  | none =>
      rw [hhs] at h
      obtain ⟨vpd, hvpd, h⟩ := except_bind_ok _ _ _ h
      beta_reduce at h
      obtain ⟨code3, hcode, h⟩ := except_bind_ok _ _ _ h
      beta_reduce at h
      obtain ⟨styleP, hstyle, h⟩ := except_bind_ok _ _ _ h
      beta_reduce at h
      obtain ⟨descP, hdesc, h⟩ := except_bind_ok _ _ _ h
      beta_reduce at h
      obtain ⟨idescP, hidesc, h⟩ := except_bind_ok _ _ _ h
      beta_reduce at h
      obtain ⟨fabP, hfab, h⟩ := except_bind_ok _ _ _ h
      beta_reduce at h
      cases h
      exact ⟨hcost, huc⟩
  | some hs =>
      rw [hhs] at h
      obtain ⟨vpd, hvpd, h⟩ := except_bind_ok _ _ _ h
      beta_reduce at h
      obtain ⟨code3, hcode, h⟩ := except_bind_ok _ _ _ h
      beta_reduce at h
      obtain ⟨styleP, hstyle, h⟩ := except_bind_ok _ _ _ h
      beta_reduce at h
      obtain ⟨descP, hdesc, h⟩ := except_bind_ok _ _ _ h
      beta_reduce at h
      obtain ⟨idescP, hidesc, h⟩ := except_bind_ok _ _ _ h
      beta_reduce at h
      obtain ⟨fabP, hfab, h⟩ := except_bind_ok _ _ _ h
      beta_reduce at h
      cases h
      exact ⟨hcost, huc⟩

theorem processBeyItem_cellB (custom : List (String × String)) (idx : Nat)
    (item : Item) (ws ws' : BWs) (h : processBeyItem custom idx item ws = .ok ws') :
    ∃ (cost : Rat) (uc : Int),
      getFloat item.cost = .ok cost ∧ getInt item.unit_count = .ok uc ∧
      ws'.cells (2 + idx, 2) = some (.jnum (cost * (uc : Rat))) := by
  obtain ⟨n, hn, rfl⟩ := processBeyItem_ok_shape custom idx item ws ws' h
  obtain ⟨hcost, huc⟩ := coerceBeyItem_ok_fields custom item n hn
  refine ⟨n.cost, n.uc, hcost, huc, ?_⟩
  rw [show (bsetFmt (bwriteRow ws (2 + idx) (beyRowVals item n)) (2 + idx) 3 "@").cells
      = (bwriteRow ws (2 + idx) (beyRowVals item n)).cells from rfl]
  have hsplit : beyRowVals item n =
      [(1, jget item.tr_hs_code (.jstr ""))] ++
      (2, JVal.jnum (n.cost * (n.uc : Rat))) ::
      [(3, .jstr n.code3),
       (4, match item.hs_code_data with
           | some hs => jget hs.unit (.jstr "")
           | none => .jstr ""),
       (5, .jstr "1"),
       (6, .jstr "BI"),
       (7, match item.product_data with
           | some pd => jget pd.brand (.jstr "")
           | none => .jstr ""),
       (8, .jnum (n.uc : Rat)),
       (9, .jstr "K1"),
       (10, .jstr "9"),
       (11, .jstr ""),
       (12, .jstr "11"),
       (13, .jstr n.tanim),
       (14, .jnum (n.vpd * 100)),
       (15, .jstr "-")] := rfl
  rw [hsplit]
  apply bwriteRow_cells_value
  intro e he
  intro hc
  have hmem : e.1 ∈ [(3 : Nat), 4, 5, 6, 7, 8, 9, 10, 11, 12, 13, 14, 15] :=
    List.mem_map_of_mem Prod.fst he
  rw [hc] at hmem
  exact absurd hmem (by decide)

theorem processBeyItem_frame (custom : List (String × String)) (idx : Nat)
    (item : Item) (ws ws' : BWs) (h : processBeyItem custom idx item ws = .ok ws')
    (p : Nat × Nat) (hp : p.1 ≠ 2 + idx) : ws'.cells p = ws.cells p := by
  obtain ⟨n, hn, rfl⟩ := processBeyItem_ok_shape custom idx item ws ws' h
  rw [show (bsetFmt (bwriteRow ws (2 + idx) (beyRowVals item n)) (2 + idx) 3 "@").cells
      = (bwriteRow ws (2 + idx) (beyRowVals item n)).cells from rfl]
  exact bwriteRow_cells_offrow _ _ _ p hp

theorem processBeyItems_cells_below (custom : List (String × String))
    (items : List Item) (idx : Nat) (ws ws' : BWs) (p : Nat × Nat)
    (h : processBeyItems custom idx items ws = .ok ws') (hp : p.1 < 2 + idx) :
    ws'.cells p = ws.cells p := by
  induction items generalizing idx ws with
  | nil =>
      unfold processBeyItems at h
      cases h
      rfl
  | cons it rest ih =>
      unfold processBeyItems at h
      cases hit : processBeyItem custom idx it ws with
      | error e => rw [hit] at h; exact Except.noConfusion h
      | ok ws1 =>
          rw [hit] at h
          rw [ih (idx + 1) ws1 h (by omega)]
          exact processBeyItem_frame custom idx it ws ws1 hit p (by omega)

theorem processBeyItems_cells_item (custom : List (String × String))
    (items : List Item) (idx : Nat) (ws ws' : BWs)
    (h : processBeyItems custom idx items ws = .ok ws') :
    ∀ i (hi : i < items.length), ∃ (cost : Rat) (uc : Int),
      getFloat (items.get ⟨i, hi⟩).cost = .ok cost ∧
      getInt (items.get ⟨i, hi⟩).unit_count = .ok uc ∧
      ws'.cells (2 + idx + i, 2) = some (.jnum (cost * (uc : Rat))) := by
  induction items generalizing idx ws with
  | nil => intro i hi; exact absurd hi (by simp)
  | cons it rest ih =>
      unfold processBeyItems at h
      cases hit : processBeyItem custom idx it ws with
      | error e => rw [hit] at h; exact Except.noConfusion h
      | ok ws1 =>
          rw [hit] at h
          obtain ⟨cost, uc, hcost, huc, hval⟩ :=
            processBeyItem_cellB custom idx it ws ws1 hit
          intro i hi
          cases i with
          | zero =>
              refine ⟨cost, uc, hcost, huc, ?_⟩
              rw [processBeyItems_cells_below custom rest (idx + 1) ws1 ws'
                (2 + idx + 0, 2) h (by omega)]
              exact hval
          | succ j =>
              obtain ⟨c', u', hc', hu', hv'⟩ := ih (idx + 1) ws1 h j (by
                have := hi
                simp at this ⊢
                omega)
              refine ⟨c', u', hc', hu', ?_⟩
              have harith : 2 + (idx + 1) + j = 2 + idx + (j + 1) := by omega
              rw [harith] at hv'
              exact hv'

/-! ### Concrete fixtures for witnesses -/

theorem mergeContaining_none_no_nonAnchor (ms : List CellRange) (r c : Nat)
    (hm : mergeContaining ms r c = none) : isMergedNonAnchor ms r c = false := by
  unfold isMergedNonAnchor
  rw [Bool.eq_false_iff]
  intro hany
  rw [List.any_eq_true] at hany
  rcases hany with ⟨m, hmem, hp⟩
  rw [Bool.and_eq_true] at hp
  unfold mergeContaining at hm
  exact (List.find?_eq_none.mp hm) m hmem hp.1

/-- C3: `set_cell_value` resolves the target against the merge set at call
time: a target inside a registered merged region writes to that region's
top-left anchor and leaves every other cell (in particular the target's own
storage) untouched; a target in no region writes directly; and the guarded
direct write never raises on the reachable path (the `except
AttributeError: pass` fallback, which would leave the sheet unchanged, is
defensive dead code). -/
theorem c3_merge_aware_write (ws : Ws) (r c : Nat) (v : JVal) :
    (∀ m, mergeContaining ws.merges r c = some m →
      (set_cell_value ws r c v).cells (m.min_row, m.min_col) = some v ∧
      ∀ p : Nat × Nat, p ≠ (m.min_row, m.min_col) →
        (set_cell_value ws r c v).cells p = ws.cells p) ∧
    (mergeContaining ws.merges r c = none →
      (set_cell_value ws r c v).cells (r, c) = some v ∧
      (∀ p : Nat × Nat, p ≠ (r, c) →
        (set_cell_value ws r c v).cells p = ws.cells p) ∧
      (directWrite ws r c v).isOk = true) := by
  constructor
  · intro m hm
    unfold set_cell_value
    rw [hm]
    constructor
    · rw [writeCell_cells, if_pos rfl]
    · intro p hp
      rw [writeCell_cells, if_neg hp]
  · intro hm
    have hfalse := mergeContaining_none_no_nonAnchor ws.merges r c hm
    have hdw : directWrite ws r c v = .ok (writeCell ws r c v) := by
      unfold directWrite
      rw [hfalse]
      rfl
    unfold set_cell_value
    rw [hm, hdw]
    refine ⟨?_, ?_, ?_⟩
    · rw [writeCell_cells, if_pos rfl]
    · intro p hp
      rw [writeCell_cells, if_neg hp]
    · rfl

/-- Witness for C3 at a concrete worksheet: writing `B2` inside the merged
region `A2:C2` lands on the anchor `A2` and leaves `B2`'s own storage
untouched; writing the unmerged `E5` lands on `E5`. -/
theorem c3_merge_aware_write_witness :
    mergeContaining tplMergeHdr.merges 2 2 = some mergeA2C2 ∧
    (set_cell_value tplMergeHdr 2 2 (.jstr "x")).cells (2, 1) = some (.jstr "x") ∧
    (set_cell_value tplMergeHdr 2 2 (.jstr "x")).cells (2, 2) = tplMergeHdr.cells (2, 2) ∧
    mergeContaining tplMergeHdr.merges 5 5 = none ∧
    (set_cell_value tplMergeHdr 5 5 (.jnum 7)).cells (5, 5) = some (.jnum 7) := by
  have h1 : mergeContaining tplMergeHdr.merges 2 2 = some mergeA2C2 := by decide
  have h2 : mergeContaining tplMergeHdr.merges 5 5 = none := by decide
  have ha := (c3_merge_aware_write tplMergeHdr 2 2 (.jstr "x")).1 mergeA2C2 h1
  have hb := (c3_merge_aware_write tplMergeHdr 5 5 (.jnum 7)).2 h2
  exact ⟨h1, ha.1, ha.2 (2, 2) (by decide), h2, hb.1⟩

/-- C8: the effective country-code mapping is the default table merged with
the caller override, override winning on collisions; a code absent from
both maps to the empty string; `"VN"` maps to `"690"` under an empty
override and `"ZZ"` to `""`.  The merge `{**DEFAULT, **custom}` builds a
fresh dict, never mutating the default table — in this purely functional
embedding `mergedMapping` only reads `DEFAULT_COUNTRY_CODE_MAPPING`. -/
theorem c8_country_code_mapping (custom : List (String × String)) (k v : String) :
    (custom = [] → DEFAULT_COUNTRY_CODE_MAPPING.lookup k = some v →
      mergedMapping custom k = v) ∧
    (custom.lookup k = some v → mergedMapping custom k = v) ∧
    (custom.lookup k = none → DEFAULT_COUNTRY_CODE_MAPPING.lookup k = none →
      mergedMapping custom k = "") ∧
    mergedMapping [] "VN" = "690" ∧
    mergedMapping [] "ZZ" = "" := by
  refine ⟨?_, ?_, ?_, by decide, by decide⟩
  · intro h0 hd
    subst h0
    unfold mergedMapping
    rw [hd]
    rfl
  · intro hc
    unfold mergedMapping
    rw [hc]
  · intro hc hd
    unfold mergedMapping
    rw [hc, hd]
    rfl

/-- Witness for C8: a colliding override wins (`VN ↦ 999` over the default
`690`), and the default table answers under the empty override. -/
theorem c8_country_code_mapping_witness :
    mergedMapping [("VN", "999")] "VN" = "999" ∧
    mergedMapping [] "CN" = "720" := by
  constructor
  · exact (c8_country_code_mapping [("VN", "999")] "VN" "999").2.1 (by decide)
  · exact (c8_country_code_mapping [] "CN" "720").1 rfl (by decide)

/-- C10: the static-template exporter writes `float(cost) * int(unit_count)`
to column B (KIYMET) of every item's row, never consulting the item's own
`total_value` field (the equation below does not mention it). -/
theorem c10_beyanname_kiymet (tpl : BWs) (data : BeyData) (ws : BWs)
    (h : export_beyanname_excel tpl data = .ok ws) :
    ∀ i (hi : i < data.items.length), ∃ (cost : Rat) (uc : Int),
      getFloat (data.items.get ⟨i, hi⟩).cost = .ok cost ∧
      getInt (data.items.get ⟨i, hi⟩).unit_count = .ok uc ∧
      ws.cells (2 + i, 2) = some (.jnum (cost * (uc : Rat))) := by
  unfold export_beyanname_excel at h
  intro i hi
  obtain ⟨cost, uc, h1, h2, h3⟩ :=
    processBeyItems_cells_item data.customMappings data.items 0 tpl ws h i hi
  refine ⟨cost, uc, h1, h2, ?_⟩
  rw [show 2 + i = 2 + 0 + i by omega]
  exact h3

/-- Witness for C10: the generated cell `B2` holds 6 = 2 × 3, not the
item's supplied `total_value` 999. -/
theorem c10_beyanname_kiymet_witness :
    ∃ ws, export_beyanname_excel bwsPlain dataBey = .ok ws ∧
      ws.cells (2, 2) = some (.jnum 6) ∧
      (JVal.jnum 6 ≠ JVal.jnum 999) := by
  cases hE : export_beyanname_excel bwsPlain dataBey with
  | error e =>
      have hok : (export_beyanname_excel bwsPlain dataBey).isOk = true := by rfl
      rw [hE] at hok
      exact Bool.noConfusion hok
  | ok w =>
      refine ⟨w, rfl, ?_, by decide⟩
      obtain ⟨cost, uc, h1, h2, h3⟩ :=
        c10_beyanname_kiymet bwsPlain dataBey w hE 0 (by decide)
      have e1 : getFloat ((dataBey.items.get ⟨0, by decide⟩).cost) = Except.ok (2 : Rat) := by
        rfl
      have e2 : getInt ((dataBey.items.get ⟨0, by decide⟩).unit_count) = Except.ok (3 : Int) := by
        rfl
      rw [e1] at h1
      rw [e2] at h2
      injection h1 with hc
      injection h2 with hu
      subst hc
      subst hu
      rw [show (2 : Nat) + 0 = 2 from rfl] at h3
      rw [h3]
      have hq : (2 : Rat) * ((3 : Int) : Rat) = 6 := by norm_num
      rw [hq]

/-! ### Pipeline plumbing helpers -/

theorem writeRow_cells_above (ws : Ws) (r : Nat) (l : List (Nat × JVal))
    (p : Nat × Nat) (h : r < p.1) :
    (writeRow ws r l).cells p = ws.cells p := by
  induction l generalizing ws with
  | nil => rfl
  | cons e rest ih =>
      rw [writeRow_cons, ih]
      exact scv_cells_above ws r e.1 e.2 p h

theorem writeHeaderBlock_merges (tpl : Ws) (cal : Calc) (wsH : Ws)
    (h : writeHeaderBlock tpl cal = .ok wsH) : wsH.merges = tpl.merges := by
  obtain ⟨l, rfl, -⟩ := writeHeaderBlock_ok_shape tpl cal wsH h
  exact writeCells_merges tpl l

theorem writeSummaryBlock_merges (wsH : Ws) (items : List Item) (wsS : Ws)
    (h : writeSummaryBlock wsH items = .ok wsS) : wsS.merges = wsH.merges := by
  obtain ⟨t1, t2, t3, t4, t5, t6, -, -, -, -, -, -, hwsS⟩ :=
    writeSummaryBlock_ok_shape wsH items wsS h
  rw [hwsS, writeCells_merges]

theorem writeColHeaders_merges (ws : Ws) :
    (writeColHeaders ws).merges = ws.merges := writeRow_merges ws 9 _

theorem writeHeaderBlock_maxRow (tpl : Ws) (cal : Calc) (wsH : Ws)
    (hmax : 10 ≤ tpl.maxRow)
    (h : writeHeaderBlock tpl cal = .ok wsH) : wsH.maxRow = tpl.maxRow := by
  obtain ⟨l, rfl, hrows⟩ := writeHeaderBlock_ok_shape tpl cal wsH h
  apply writeCells_maxRow
  intro e he
  rcases hrows e he with h2 | h2 <;> rw [h2] <;> omega

theorem writeSummaryBlock_maxRow (wsH : Ws) (items : List Item) (wsS : Ws)
    (hmax : 10 ≤ wsH.maxRow)
    (h : writeSummaryBlock wsH items = .ok wsS) : wsS.maxRow = wsH.maxRow := by
  obtain ⟨t1, t2, t3, t4, t5, t6, -, -, -, -, -, -, hwsS⟩ :=
    writeSummaryBlock_ok_shape wsH items wsS h
  rw [hwsS]
  apply writeCells_maxRow
  intro e he
  simp only [summaryL, List.mem_cons, List.not_mem_nil, or_false] at he
  rcases he with rfl | rfl | rfl | rfl | rfl | rfl | rfl | rfl | rfl | rfl |
    rfl | rfl | rfl | rfl | rfl | rfl <;>
    exact le_trans (by norm_num) hmax

theorem writeColHeaders_maxRow (ws : Ws) (hmax : 10 ≤ ws.maxRow) :
    (writeColHeaders ws).maxRow = ws.maxRow :=
  writeRow_maxRow ws 9 _ (by omega)

theorem writeHeaderBlock_bounded (tpl : Ws) (cal : Calc) (wsH : Ws)
    (h : writeHeaderBlock tpl cal = .ok wsH) (hb : Bounded tpl) : Bounded wsH := by
  obtain ⟨l, rfl, -⟩ := writeHeaderBlock_ok_shape tpl cal wsH h
  exact bounded_writeCells tpl l hb

theorem writeSummaryBlock_bounded (wsH : Ws) (items : List Item) (wsS : Ws)
    (h : writeSummaryBlock wsH items = .ok wsS) (hb : Bounded wsH) : Bounded wsS := by
  obtain ⟨t1, t2, t3, t4, t5, t6, -, -, -, -, -, -, hwsS⟩ :=
    writeSummaryBlock_ok_shape wsH items wsS h
  rw [hwsS]
  exact bounded_writeCells wsH _ hb

theorem writeHeaderBlock_cfRules (tpl : Ws) (cal : Calc) (wsH : Ws)
    (h : writeHeaderBlock tpl cal = .ok wsH) : wsH.cfRules = tpl.cfRules := by
  obtain ⟨l, rfl, -⟩ := writeHeaderBlock_ok_shape tpl cal wsH h
  exact writeCells_cfRules tpl l

theorem writeSummaryBlock_cfRules (wsH : Ws) (items : List Item) (wsS : Ws)
    (h : writeSummaryBlock wsH items = .ok wsS) : wsS.cfRules = wsH.cfRules := by
  obtain ⟨t1, t2, t3, t4, t5, t6, -, -, -, -, -, -, hwsS⟩ :=
    writeSummaryBlock_ok_shape wsH items wsS h
  rw [hwsS, writeCells_cfRules]

theorem processItemPure_cfRules (idx : Nat) (item : Item) (n : ItemNums)
    (ws : Ws) : (processItemPure idx item n ws).cfRules = ws.cfRules := by
  rw [processItemPure_eq, applyBanding_cfRules, writeRow_cfRules]
  by_cases h : idx > 0
  · rw [if_pos h, cloneRow_cfRules]
  · rw [if_neg h]

theorem processItems_cfRules (items : List Item) (idx : Nat) (ws ws' : Ws)
    (h : processItems idx items ws = .ok ws') : ws'.cfRules = ws.cfRules := by
  induction items generalizing idx ws with
  | nil => rw [processItems_nil idx ws ws' h]
  | cons it rest ih =>
      obtain ⟨n, hn, hrest⟩ := (processItems_ok_cons idx it rest ws ws').mp h
      rw [ih (idx + 1) _ hrest, processItemPure_cfRules]

theorem preLoop_state (tpl : Ws) (data : ExcelData) (wsH wsS : Ws)
    (hmax : 10 ≤ tpl.maxRow)
    (hH : writeHeaderBlock tpl data.calculation = .ok wsH)
    (hS : writeSummaryBlock wsH data.items = .ok wsS) :
    (writeColHeaders wsS).merges = tpl.merges ∧
    (writeColHeaders wsS).maxRow = tpl.maxRow ∧
    (Bounded tpl → Bounded (writeColHeaders wsS)) ∧
    (writeColHeaders wsS).cfRules = tpl.cfRules := by
  have hm1 := writeHeaderBlock_merges tpl data.calculation wsH hH
  have hx1 := writeHeaderBlock_maxRow tpl data.calculation wsH hmax hH
  have hm2 := writeSummaryBlock_merges wsH data.items wsS hS
  have hx2 := writeSummaryBlock_maxRow wsH data.items wsS (by omega) hS
  refine ⟨?_, ?_, ?_, ?_⟩
  · rw [writeColHeaders_merges, hm2, hm1]
  · rw [writeColHeaders_maxRow wsS (by omega), hx2, hx1]
  · intro hb
    have hb1 := writeHeaderBlock_bounded tpl data.calculation wsH hH hb
    have hb2 := writeSummaryBlock_bounded wsH data.items wsS hS hb1
    exact bounded_writeRow wsS 9 _ hb2
  · show (writeRow wsS 9 _).cfRules = tpl.cfRules
    rw [writeRow_cfRules, writeSummaryBlock_cfRules wsH data.items wsS hS,
      writeHeaderBlock_cfRules tpl data.calculation wsH hH]

theorem writeColHeaders_cells_pinned (ws : Ws) (p : Nat × Nat)
    (hfree : MergeFreeCell ws.merges p.1 p.2) (hne : p.1 ≠ 9) :
    (writeColHeaders ws).cells p = ws.cells p := by
  unfold writeColHeaders
  apply writeRow_cells_pinned ws 9 _ p hfree
  intro e he heq
  rw [Prod.mk.injEq] at heq
  exact hne heq.1.symm

theorem postS_row7 (tpl : Ws) (items : List Item) (wsS wsL : Ws) (ldr c : Nat)
    (hok : TplMergesOK tpl.merges) (hmS : wsS.merges = tpl.merges)
    (hfree : MergeFreeCell tpl.merges 7 c) (hc : c ≤ 28) (hldr : 9 ≤ ldr)
    (hL : processItems 0 items (writeColHeaders wsS) = .ok wsL) :
    (scrubAll wsL ldr).cells (7, c) = wsS.cells (7, c) := by
  have hkeep : (scrubAll wsL ldr).cells (7, c) = wsL.cells (7, c) := by
    apply scrubAll_cells_keep
    · intro hin
      rcases hin with ⟨a, -, -, -⟩
      omega
    · intro hin
      rcases hin with ⟨-, -, h29, -⟩
      omega
    · intro hin
      rcases hin with ⟨-, -, h31, -⟩
      omega
  rw [hkeep]
  have hfromC : MergesFrom tpl.merges (writeColHeaders wsS).merges := by
    rw [writeColHeaders_merges, hmS]
    exact mergesFrom_refl tpl.merges
  rw [processItems_cells_below tpl.merges items 0 _ wsL (7, c) hok hfromC hL
    (by omega)]
  apply writeColHeaders_cells_pinned wsS (7, c)
  · show MergeFreeCell wsS.merges 7 c
    rw [hmS]
    exact hfree
  · show (7 : Nat) ≠ 9
    decide

theorem writeCells_cells_each (ws : Ws) (l : List (Nat × Nat × JVal))
    (hfree : ∀ e ∈ l, MergeFreeCell ws.merges e.1 e.2.1)
    (hdist : List.Pairwise (fun a b : Nat × Nat × JVal =>
      (a.1, a.2.1) ≠ (b.1, b.2.1)) l) :
    ∀ r c v, (r, c, v) ∈ l → (writeCells ws l).cells (r, c) = some v := by
  induction l generalizing ws with
  | nil =>
      intro r c v he
      exact absurd he (List.not_mem_nil (r, c, v))
  | cons e0 rest ih =>
      intro r c v he
      rcases List.mem_cons.mp he with heq | hmem
      · cases heq.symm
        rw [writeCells_cons]
        rw [writeCells_cells_pinned _ rest (r, c) ?hfree2 ?hne]
        · exact scv_cells_self ws r c v
            (hfree (r, c, v) (List.mem_cons_self (r, c, v) rest))
        case hfree2 =>
          show MergeFreeCell (set_cell_value ws r c v).merges r c
          rw [scv_merges]
          exact hfree (r, c, v) (List.mem_cons_self (r, c, v) rest)
        case hne =>
          intro e' he' heq'
          exact (List.pairwise_cons.mp hdist).1 e' he' heq'.symm
      · rw [writeCells_cons]
        apply ih
        · intro e' he'
          rw [scv_merges]
          exact hfree e' (List.mem_cons_of_mem e0 he')
        · exact (List.pairwise_cons.mp hdist).2
        · exact hmem

set_option maxHeartbeats 800000 in
theorem export_summary_cells (tpl : Ws) (data : ExcelData) (ws : Ws)
    (hok : TplMergesOK tpl.merges) (hmax : 10 ≤ tpl.maxRow)
    (hfree : ∀ r c, 6 ≤ r → r ≤ 7 → 1 ≤ c → c ≤ 8 →
      MergeFreeCell tpl.merges r c)
    (h : export_excel tpl data = .ok ws) :
    ∃ t1 t2 t3 t4 t5 t6 : Rat,
      sumField data.items Item.customs_tax = .ok t1 ∧
      sumField data.items Item.additional_customs_tax = .ok t2 ∧
      sumField data.items Item.kkdf = .ok t3 ∧
      sumField data.items Item.vat = .ok t4 ∧
      sumField data.items Item.total_tax_usd = .ok t5 ∧
      sumField data.items Item.total_tax_tl = .ok t6 ∧
      ws.cells (7, 1) = some (.jnum t1) ∧
      ws.cells (7, 2) = some (.jnum t2) ∧
      ws.cells (7, 3) = some (.jnum t3) ∧
      ws.cells (7, 4) = some (.jnum (t4 + t3)) ∧
      ws.cells (7, 5) = some (.jnum t4) ∧
      ws.cells (7, 6) = some (.jnum t5) ∧
      ws.cells (7, 7) = some (.jnum (t5 - t3)) ∧
      ws.cells (7, 8) = some (.jnum t6) := by
  obtain ⟨wsH, wsS, wsL, hH, hS, hL, rfl⟩ := export_excel_ok_shape tpl data ws h
  have hmH := writeHeaderBlock_merges tpl data.calculation wsH hH
  obtain ⟨t1, t2, t3, t4, t5, t6, h1, h2, h3, h4, h5, h6, hwsS⟩ :=
    writeSummaryBlock_ok_shape wsH data.items wsS hS
  have hmS : wsS.merges = tpl.merges := by
    rw [hwsS, writeCells_merges, hmH]
  have heach := writeCells_cells_each wsH (summaryL t1 t2 t3 t4 t5 t6)
    (by intro e he
        simp only [summaryL, List.mem_cons, List.not_mem_nil, or_false] at he
        rw [hmH]
        rcases he with rfl | rfl | rfl | rfl | rfl | rfl | rfl | rfl |
          rfl | rfl | rfl | rfl | rfl | rfl | rfl | rfl <;>
          exact hfree _ _ (by norm_num) (by norm_num) (by norm_num) (by norm_num))
    (by simp [summaryL])
  have htr : ∀ c, 1 ≤ c → c ≤ 8 →
      (scrubAll wsL (10 + data.items.length - 1)).cells (7, c) =
        wsS.cells (7, c) := by
    intro c hc1 hc2
    exact postS_row7 tpl data.items wsS wsL (10 + data.items.length - 1) c hok
      hmS (hfree 7 c (by omega) (by omega) hc1 hc2) (by omega) (by omega) hL
  refine ⟨t1, t2, t3, t4, t5, t6, h1, h2, h3, h4, h5, h6,
    ?_, ?_, ?_, ?_, ?_, ?_, ?_, ?_⟩
  · rw [htr 1 (by omega) (by omega), hwsS]
    exact heach 7 1 (.jnum t1) (by
      simp only [summaryL]
      repeat first
        | exact List.mem_cons_self _ _
        | apply List.mem_cons_of_mem)
  · rw [htr 2 (by omega) (by omega), hwsS]
    exact heach 7 2 (.jnum t2) (by
      simp only [summaryL]
      repeat first
        | exact List.mem_cons_self _ _
        | apply List.mem_cons_of_mem)
  · rw [htr 3 (by omega) (by omega), hwsS]
    exact heach 7 3 (.jnum t3) (by
      simp only [summaryL]
      repeat first
        | exact List.mem_cons_self _ _
        | apply List.mem_cons_of_mem)
  · rw [htr 4 (by omega) (by omega), hwsS]
    exact heach 7 4 (.jnum (t4 + t3)) (by
      simp only [summaryL]
      repeat first
        | exact List.mem_cons_self _ _
        | apply List.mem_cons_of_mem)
  · rw [htr 5 (by omega) (by omega), hwsS]
    exact heach 7 5 (.jnum t4) (by
      simp only [summaryL]
      repeat first
        | exact List.mem_cons_self _ _
        | apply List.mem_cons_of_mem)
  · rw [htr 6 (by omega) (by omega), hwsS]
    exact heach 7 6 (.jnum t5) (by
      simp only [summaryL]
      repeat first
        | exact List.mem_cons_self _ _
        | apply List.mem_cons_of_mem)
  · rw [htr 7 (by omega) (by omega), hwsS]
    exact heach 7 7 (.jnum (t5 - t3)) (by
      simp only [summaryL]
      repeat first
        | exact List.mem_cons_self _ _
        | apply List.mem_cons_of_mem)
  · rw [htr 8 (by omega) (by omega), hwsS]
    exact heach 7 8 (.jnum t6) (by
      simp only [summaryL]
      repeat first
        | exact List.mem_cons_self _ _
        | apply List.mem_cons_of_mem)

/-! ### Per-item data-cell extraction and merge-replication characterization -/

theorem rowVals_split_col1 (it : Item) (n : ItemNums) :
    ∃ l₁ l₂, rowVals it n = l₁ ++ (1, jget it.hts_code (.jstr "")) :: l₂ ∧
      ∀ e ∈ l₂, e.1 ≠ 1 := by
  refine ⟨[],
    [(2, jget it.country_of_origin (.jstr "")),
     (3, jget it.style (.jstr "")),
     (4, jget it.color (.jstr "")),
     (5, jget it.category (.jstr "")),
     (6, jget it.description (.jstr "")),
     (7, jget it.fabric_content (.jstr "")),
     (8, .jnum n.cost),
     (9, .jnum (n.unitCount : Rat)),
     (10, .jnum n.totalValue),
     (11, jget it.tr_hs_code (.jstr "")),
     (12, .jstr (if containsSub n.req "EX REGISTRY FORM" then "X" else "")),
     (13, .jstr (if containsSub n.req "AZO DYE TEST" then "X" else "")),
     (14, .jstr (if containsSub n.req "SPECIAL CUSTOM" then "X" else "")),
     (15, .jnum n.transportShare),
     (16, .jnum n.insuranceShare),
     (17, .jnum n.storageShare),
     (18, .jnum n.customsTaxPercent),
     (19, .jnum n.addCustomsTaxPercent),
     (20, .jnum n.kkdfPercent),
     (21, .jnum n.vatPercentCell),
     (22, .jnum n.customsTax),
     (23, .jnum n.addCustomsTax),
     (24, .jnum n.kkdf),
     (25, .jnum n.vatBase),
     (26, .jnum (n.vatBase - n.kkdf)),
     (27, .jnum n.vat),
     (28, .jnum ((n.vatBase - n.kkdf) * n.vatPercent)),
     (29, .jnum n.totalTaxUsd),
     (30, .jnum (n.totalTaxUsd - n.kkdf))], rfl, ?_⟩
  intro e he
  simp only [List.mem_cons, List.not_mem_nil, or_false] at he
  rcases he with rfl | rfl | rfl | rfl | rfl | rfl | rfl | rfl | rfl | rfl |
    rfl | rfl | rfl | rfl | rfl | rfl | rfl | rfl | rfl | rfl | rfl | rfl |
    rfl | rfl | rfl | rfl | rfl | rfl | rfl <;> simp

theorem rowVals_split_col26 (it : Item) (n : ItemNums) :
    ∃ l₁ l₂, rowVals it n = l₁ ++ (26, .jnum (n.vatBase - n.kkdf)) :: l₂ ∧
      ∀ e ∈ l₂, e.1 ≠ 26 := by
  refine ⟨
    [(1, jget it.hts_code (.jstr "")),
     (2, jget it.country_of_origin (.jstr "")),
     (3, jget it.style (.jstr "")),
     (4, jget it.color (.jstr "")),
     (5, jget it.category (.jstr "")),
     (6, jget it.description (.jstr "")),
     (7, jget it.fabric_content (.jstr "")),
     (8, .jnum n.cost),
     (9, .jnum (n.unitCount : Rat)),
     (10, .jnum n.totalValue),
     (11, jget it.tr_hs_code (.jstr "")),
     (12, .jstr (if containsSub n.req "EX REGISTRY FORM" then "X" else "")),
     (13, .jstr (if containsSub n.req "AZO DYE TEST" then "X" else "")),
     (14, .jstr (if containsSub n.req "SPECIAL CUSTOM" then "X" else "")),
     (15, .jnum n.transportShare),
     (16, .jnum n.insuranceShare),
     (17, .jnum n.storageShare),
     (18, .jnum n.customsTaxPercent),
     (19, .jnum n.addCustomsTaxPercent),
     (20, .jnum n.kkdfPercent),
     (21, .jnum n.vatPercentCell),
     (22, .jnum n.customsTax),
     (23, .jnum n.addCustomsTax),
     (24, .jnum n.kkdf),
     (25, .jnum n.vatBase)],
    [(27, .jnum n.vat),
     (28, .jnum ((n.vatBase - n.kkdf) * n.vatPercent)),
     (29, .jnum n.totalTaxUsd),
     (30, .jnum (n.totalTaxUsd - n.kkdf))], rfl, ?_⟩
  intro e he
  simp only [List.mem_cons, List.not_mem_nil, or_false] at he
  rcases he with rfl | rfl | rfl | rfl <;> simp

theorem rowVals_split_col28 (it : Item) (n : ItemNums) :
    ∃ l₁ l₂,
      rowVals it n = l₁ ++ (28, .jnum ((n.vatBase - n.kkdf) * n.vatPercent)) :: l₂ ∧
      ∀ e ∈ l₂, e.1 ≠ 28 := by
  refine ⟨
    [(1, jget it.hts_code (.jstr "")),
     (2, jget it.country_of_origin (.jstr "")),
     (3, jget it.style (.jstr "")),
     (4, jget it.color (.jstr "")),
     (5, jget it.category (.jstr "")),
     (6, jget it.description (.jstr "")),
     (7, jget it.fabric_content (.jstr "")),
     (8, .jnum n.cost),
     (9, .jnum (n.unitCount : Rat)),
     (10, .jnum n.totalValue),
     (11, jget it.tr_hs_code (.jstr "")),
     (12, .jstr (if containsSub n.req "EX REGISTRY FORM" then "X" else "")),
     (13, .jstr (if containsSub n.req "AZO DYE TEST" then "X" else "")),
     (14, .jstr (if containsSub n.req "SPECIAL CUSTOM" then "X" else "")),
     (15, .jnum n.transportShare),
     (16, .jnum n.insuranceShare),
     (17, .jnum n.storageShare),
     (18, .jnum n.customsTaxPercent),
     (19, .jnum n.addCustomsTaxPercent),
     (20, .jnum n.kkdfPercent),
     (21, .jnum n.vatPercentCell),
     (22, .jnum n.customsTax),
     (23, .jnum n.addCustomsTax),
     (24, .jnum n.kkdf),
     (25, .jnum n.vatBase),
     (26, .jnum (n.vatBase - n.kkdf)),
     (27, .jnum n.vat)],
    [(29, .jnum n.totalTaxUsd),
     (30, .jnum (n.totalTaxUsd - n.kkdf))], rfl, ?_⟩
  intro e he
  simp only [List.mem_cons, List.not_mem_nil, or_false] at he
  rcases he with rfl | rfl <;> simp

theorem processItems_cells_rowvals (tms : List CellRange) (items : List Item)
    (idx : Nat) (ws ws' : Ws) (c0 : Nat) (valOf : Item → ItemNums → JVal)
    (hok : TplMergesOK tms) (hfrom : MergesFrom tms ws.merges)
    (hcf : Row10ColFree tms c0)
    (hval : ∀ it n, ∃ l₁ l₂, rowVals it n = l₁ ++ (c0, valOf it n) :: l₂ ∧
      ∀ e ∈ l₂, e.1 ≠ c0)
    (h : processItems idx items ws = .ok ws') :
    ∀ i (hi : i < items.length), ∃ n,
      coerceItem (items.get ⟨i, hi⟩) = .ok n ∧
      ws'.cells (10 + idx + i, c0) = some (valOf (items.get ⟨i, hi⟩) n) := by
  induction items generalizing idx ws with
  | nil =>
      intro i hi
      exact absurd hi (by simp)
  | cons it rest ih =>
      obtain ⟨n, hn, hrest⟩ := (processItems_ok_cons idx it rest ws ws').mp h
      have hfrom1 := mergesFrom_processItemPure tms idx it n ws hfrom
      intro i hi
      cases i with
      | zero =>
          refine ⟨n, hn, ?_⟩
          have hbel := processItems_cells_below tms rest (idx + 1) _ ws'
            (10 + idx, c0) hok hfrom1 hrest (by omega)
          obtain ⟨l₁, l₂, hsplit, h₂⟩ := hval it n
          have hv := processItemPure_cells_val tms idx it n ws c0 (valOf it n)
            l₁ l₂ hok hfrom hcf hsplit h₂
          show ws'.cells (10 + idx + 0, c0) = some (valOf it n)
          rw [show 10 + idx + 0 = 10 + idx by omega]
          rw [hbel]
          exact hv
      | succ j =>
          have hj : j < rest.length := by
            simp only [List.length_cons] at hi
            omega
          obtain ⟨n', hn', hv⟩ := ih (idx + 1) _ hfrom1 hrest j hj
          refine ⟨n', hn', ?_⟩
          show ws'.cells (10 + idx + (j + 1), c0) =
            some (valOf (rest.get ⟨j, hj⟩) n')
          rw [show 10 + idx + (j + 1) = 10 + (idx + 1) + j by omega]
          exact hv

theorem allClones_eq_flatMap (tms : List CellRange) (s n : Nat) (hs : 1 ≤ s) :
    allClones tms (List.range' s n) =
      (List.range' s n).flatMap
        (fun j => (row10merges 10 tms).map (fun m => reRow m (10 + j))) := by
  induction n generalizing s with
  | zero => rfl
  | succ k ih =>
      rw [List.range'_succ]
      have h1 : allClones tms (s :: List.range' (s + 1) k) =
          (if s = 0 then [] else
            (row10merges 10 tms).map (fun m => reRow m (10 + s))) ++
          allClones tms (List.range' (s + 1) k) := rfl
      have h2 : (s :: List.range' (s + 1) k).flatMap
            (fun j => (row10merges 10 tms).map (fun m => reRow m (10 + j))) =
          (row10merges 10 tms).map (fun m => reRow m (10 + s)) ++
          (List.range' (s + 1) k).flatMap
            (fun j => (row10merges 10 tms).map (fun m => reRow m (10 + j))) := rfl
      rw [h1, h2, if_neg (by omega), ih (s + 1) (by omega)]

/-- C1: on a successful export of `N ≥ 2` items, the final merge set is
exactly the template merges plus, for each inserted row `10 + j`
(`1 ≤ j ≤ N - 1`), one clone of every region spanning exactly the template
row 10, with identical column span; hence every such region appears on each
of the `N` generated data rows (the template original covers row 10), no
clone is duplicated (each `(region, row)` pair is listed once), and every
non-template region sits at a single row `≥ 11` — never in the
header/summary rows 1-9. -/
theorem c1_merge_replication (tpl : Ws) (data : ExcelData) (ws : Ws)
    (hN : 2 ≤ data.items.length)
    (h : export_excel tpl data = .ok ws) :
    ws.merges = tpl.merges ++
      (List.range' 1 (data.items.length - 1)).flatMap
        (fun j => (row10merges 10 tpl.merges).map (fun m => reRow m (10 + j))) ∧
    (∀ m₀ ∈ row10merges 10 tpl.merges, ∀ j, 1 ≤ j → j ≤ data.items.length - 1 →
      reRow m₀ (10 + j) ∈ ws.merges ∧
      (reRow m₀ (10 + j)).min_col = m₀.min_col ∧
      (reRow m₀ (10 + j)).max_col = m₀.max_col ∧
      (reRow m₀ (10 + j)).min_row = 10 + j ∧
      (reRow m₀ (10 + j)).max_row = 10 + j) ∧
    (∀ m ∈ ws.merges, m ∉ tpl.merges →
      ∃ m₀ ∈ row10merges 10 tpl.merges, ∃ j, 1 ≤ j ∧ j ≤ data.items.length - 1 ∧
        m = reRow m₀ (10 + j) ∧ m.min_row = 10 + j ∧ m.max_row = 10 + j ∧
        11 ≤ m.min_row) := by
  obtain ⟨wsH, wsS, wsL, hH, hS, hL, rfl⟩ := export_excel_ok_shape tpl data ws h
  have hmer : (writeColHeaders wsS).merges = tpl.merges := by
    rw [writeColHeaders_merges, writeSummaryBlock_merges wsH data.items wsS hS,
      writeHeaderBlock_merges tpl data.calculation wsH hH]
  have hR : row10merges 10 (writeColHeaders wsS).merges =
      row10merges 10 tpl.merges := by
    rw [hmer]
  obtain ⟨K, hK⟩ : ∃ K, data.items.length = K + 1 :=
    ⟨data.items.length - 1, by omega⟩
  have hall : allClones tpl.merges (List.range' 0 data.items.length) =
      allClones tpl.merges (List.range' 1 (data.items.length - 1)) := by
    rw [hK, List.range'_succ]
    rfl
  have hmain : (scrubAll wsL (10 + data.items.length - 1)).merges =
      tpl.merges ++
        (List.range' 1 (data.items.length - 1)).flatMap
          (fun j => (row10merges 10 tpl.merges).map
            (fun m => reRow m (10 + j))) := by
    rw [scrubAll_merges,
      processItems_merges tpl.merges data.items 0 _ wsL hR hL, hmer, hall,
      allClones_eq_flatMap tpl.merges 1 (data.items.length - 1) (le_refl 1)]
  refine ⟨hmain, ?_, ?_⟩
  · intro m₀ hm₀ j hj1 hj2
    refine ⟨?_, rfl, rfl, rfl, rfl⟩
    rw [hmain]
    apply List.mem_append_right
    rw [List.mem_flatMap]
    refine ⟨j, ?_, List.mem_map_of_mem _ hm₀⟩
    rw [List.mem_range'_1]
    omega
  · intro m hm hnot
    rw [hmain] at hm
    rcases List.mem_append.mp hm with hmem | hmem
    · exact absurd hmem hnot
    · rw [List.mem_flatMap] at hmem
      obtain ⟨j, hj, hmm⟩ := hmem
      rw [List.mem_range'_1] at hj
      rw [List.mem_map] at hmm
      obtain ⟨m₀, hm₀, heq⟩ := hmm
      subst heq
      refine ⟨m₀, hm₀, j, by omega, by omega, rfl, rfl, rfl, ?_⟩
      show 11 ≤ 10 + j
      omega

/-- Witness for C1: a two-item export over a template whose only merge is
`A10:B10` registers a clone `A11:B11` on the inserted row. -/
theorem c1_merge_replication_witness :
    ∃ ws, export_excel tplC1 dataC1 = .ok ws ∧
      reRow mergeA10B10 11 ∈ ws.merges ∧
      (reRow mergeA10B10 11).min_col = mergeA10B10.min_col ∧
      (reRow mergeA10B10 11).max_col = mergeA10B10.max_col := by
  cases hE : export_excel tplC1 dataC1 with
  | error e =>
      have hok : (export_excel tplC1 dataC1).isOk = true := rfl
      rw [hE] at hok
      exact Bool.noConfusion hok
  | ok w =>
      have hc := c1_merge_replication tplC1 dataC1 w (by decide) hE
      have hm₀ : mergeA10B10 ∈ row10merges 10 tplC1.merges := by decide
      obtain ⟨hmem, hc1, hc2, -, -⟩ :=
        hc.2.1 mergeA10B10 hm₀ 1 (by decide) (by decide)
      exact ⟨w, rfl, hmem, hc1, hc2⟩

/-- C2: on a successful export of `N ≥ 1` items over a template whose body
ends at row 10 (`Bounded`, `maxRow = 10` and the merge shape are modelled
from the spec, the template asset being absent from the sources), the data
region is exactly rows `10 .. 10 + N - 1`: each item `i` populates row
`10 + i` (witnessed by its column-A value), the final extent is
`maxRow + (N - 1)` — the first item reuses the template row in place and
each later item inserts exactly one row — and below the region no cell of
columns A-AD holds a truthy value. -/
theorem c2_data_region (tpl : Ws) (data : ExcelData) (ws : Ws)
    (hok : TplMergesOK tpl.merges) (hcf : Row10ColFree tpl.merges 1)
    (hmax : tpl.maxRow = 10) (hb : Bounded tpl)
    (hne : 1 ≤ data.items.length) (hlen : data.items.length ≤ 5991)
    (h : export_excel tpl data = .ok ws) :
    ws.maxRow = tpl.maxRow + (data.items.length - 1) ∧
    (∀ i (hi : i < data.items.length), ∃ n,
      coerceItem (data.items.get ⟨i, hi⟩) = .ok n ∧
      ws.cells (10 + i, 1) =
        some (jget (data.items.get ⟨i, hi⟩).hts_code (.jstr ""))) ∧
    (∀ r c, 10 + data.items.length ≤ r → 1 ≤ c → c ≤ 30 →
      truthyOpt (ws.cells (r, c)) = false) := by
  obtain ⟨wsH, wsS, wsL, hH, hS, hL, rfl⟩ := export_excel_ok_shape tpl data ws h
  obtain ⟨hmer, hmaxC, hbC, -⟩ := preLoop_state tpl data wsH wsS (by omega) hH hS
  have hfrom : MergesFrom tpl.merges (writeColHeaders wsS).merges := by
    rw [hmer]
    exact mergesFrom_refl tpl.merges
  have hbL : Bounded wsL := bounded_processItems data.items 0 _ wsL (hbC hb) hL
  have hmaxL : wsL.maxRow = tpl.maxRow + (data.items.length - 1) := by
    have hm := processItems_maxRow data.items 0 _ wsL hL
      (by rw [hmaxC]; omega) (by rw [hmaxC]; omega)
    rw [if_pos rfl] at hm
    rw [hm, hmaxC]
  refine ⟨?_, ?_, ?_⟩
  · rw [scrubAll_maxRow, hmaxL]
  · intro i hi
    obtain ⟨n, hn, hv⟩ := processItems_cells_rowvals tpl.merges data.items 0
      _ wsL 1 (fun it _ => jget it.hts_code (.jstr "")) hok hfrom hcf
      (fun it n => rowVals_split_col1 it n) hL i hi
    refine ⟨n, hn, ?_⟩
    have hkeep : (scrubAll wsL (10 + data.items.length - 1)).cells (10 + i, 1) =
        wsL.cells (10 + i, 1) := by
      apply scrubAll_cells_keep
      · intro hin
        rcases hin with ⟨h1, -, -, -⟩
        omega
      · intro hin
        rcases hin with ⟨-, -, h29, -⟩
        omega
      · intro hin
        rcases hin with ⟨-, -, h31, -⟩
        omega
    rw [hkeep]
    rw [show 10 + i = 10 + 0 + i by omega]
    exact hv
  · intro r c hr hc1 hc2
    by_cases h6 : r ≤ 6000
    · apply scrubAll_cells_reg1_notTruthy wsL _ (r, c) hbL
      exact ⟨by omega, by omega, by omega, by omega⟩
    · have hkeep := scrubAll_cells_keep wsL (10 + data.items.length - 1) (r, c)
        (fun hin => absurd hin.2.1 (by omega))
        (fun hin => absurd hin.2.1 (by omega))
        (fun hin => absurd hin.2.1 (by omega))
      rw [hkeep, (hbL (r, c) (by rw [hmaxL, hmax]; omega)).1]
      rfl

/-- Witness for C2: a one-item export over the plain template writes the
item's HTS code at `A10` and leaves the extent at row 10 (no insertion for
the first item). -/
theorem c2_data_region_witness :
    ∃ ws, export_excel tplPlain dataC2 = .ok ws ∧
      ws.cells (10, 1) = some (.jstr "6109.10") ∧ ws.maxRow = 10 := by
  cases hE : export_excel tplPlain dataC2 with
  | error e =>
      have hok : (export_excel tplPlain dataC2).isOk = true := rfl
      rw [hE] at hok
      exact Bool.noConfusion hok
  | ok w =>
      have hc := c2_data_region tplPlain dataC2 w
        (fun m hm => absurd hm (List.not_mem_nil m))
        (fun m hm => absurd hm (List.not_mem_nil m))
        rfl (fun p hp => ⟨rfl, rfl, rfl⟩) (by decide) (by decide) hE
      obtain ⟨n, hn, hv⟩ := hc.2.1 0 (by decide)
      refine ⟨w, rfl, ?_, ?_⟩
      · exact hv
      · rw [hc.1]
        rfl

/-- C4: on a successful export, the eight summary cells `A7`-`H7` hold the
six cross-item raw sums plus the two derived values `D7 = sum(vat) +
sum(kkdf)` and `G7 = sum(total_tax_usd) - sum(kkdf)`; every raw sum equals
the sum of the per-item coerced values, and an absent field coerces to `0`.
(The summary rows 6-7, columns A-H, are modelled from the spec as
individual — merge-free — cells; the template asset is absent from the
sources.  Sums are exact rationals, so the spec's floating-point tolerance
is met exactly.) -/
theorem c4_summary_sums (tpl : Ws) (data : ExcelData) (ws : Ws)
    (hok : TplMergesOK tpl.merges) (hmax : 10 ≤ tpl.maxRow)
    (hfree : ∀ r c, 6 ≤ r → r ≤ 7 → 1 ≤ c → c ≤ 8 →
      MergeFreeCell tpl.merges r c)
    (h : export_excel tpl data = .ok ws) :
    ∃ t1 t2 t3 t4 t5 t6 : Rat,
      sumField data.items Item.customs_tax = .ok t1 ∧
      sumField data.items Item.additional_customs_tax = .ok t2 ∧
      sumField data.items Item.kkdf = .ok t3 ∧
      sumField data.items Item.vat = .ok t4 ∧
      sumField data.items Item.total_tax_usd = .ok t5 ∧
      sumField data.items Item.total_tax_tl = .ok t6 ∧
      ws.cells (7, 1) = some (.jnum t1) ∧
      ws.cells (7, 2) = some (.jnum t2) ∧
      ws.cells (7, 3) = some (.jnum t3) ∧
      ws.cells (7, 4) = some (.jnum (t4 + t3)) ∧
      ws.cells (7, 5) = some (.jnum t4) ∧
      ws.cells (7, 6) = some (.jnum t5) ∧
      ws.cells (7, 7) = some (.jnum (t5 - t3)) ∧
      ws.cells (7, 8) = some (.jnum t6) ∧
      (∀ (f : Item → Option JVal) (t : Rat) (qs : List Rat),
        sumField data.items f = .ok t →
        List.Forall₂ (fun it q => getFloat (f it) = .ok q) data.items qs →
        t = qs.sum) ∧
      getFloat none = .ok 0 := by
  obtain ⟨t1, t2, t3, t4, t5, t6, h1, h2, h3, h4, h5, h6,
    v1, v2, v3, v4, v5, v6, v7, v8⟩ :=
    export_summary_cells tpl data ws hok hmax hfree h
  refine ⟨t1, t2, t3, t4, t5, t6, h1, h2, h3, h4, h5, h6,
    v1, v2, v3, v4, v5, v6, v7, v8, ?_, rfl⟩
  intro f t qs hft hqs
  have hsum := sumField_eq f data.items qs hqs
  rw [hft] at hsum
  injection hsum

/-- Witness for C4 at one concrete item (`kkdf = 5`, `vat = 7`,
`total_tax_usd = 20`): `D7 = 7 + 5 = 12` and `G7 = 20 - 5 = 15`. -/
theorem c4_summary_sums_witness :
    ∃ ws, export_excel tplPlain dataC4 = .ok ws ∧
      ws.cells (7, 4) = some (.jnum 12) ∧ ws.cells (7, 7) = some (.jnum 15) := by
  cases hE : export_excel tplPlain dataC4 with
  | error e =>
      have hok : (export_excel tplPlain dataC4).isOk = true := rfl
      rw [hE] at hok
      exact Bool.noConfusion hok
  | ok w =>
      obtain ⟨t1, t2, t3, t4, t5, t6, h1, h2, h3, h4, h5, h6,
        v1, v2, v3, v4, v5, v6, v7, v8, -, -⟩ :=
        c4_summary_sums tplPlain dataC4 w
          (fun m hm => absurd hm (List.not_mem_nil m)) (by decide)
          (fun r c hr1 hr2 hc1 hc2 m hm => absurd hm (List.not_mem_nil m)) hE
      have e3 : sumField dataC4.items Item.kkdf = .ok ((0 : Rat) + 5) := rfl
      have e4 : sumField dataC4.items Item.vat = .ok ((0 : Rat) + 7) := rfl
      have e5 : sumField dataC4.items Item.total_tax_usd =
        .ok ((0 : Rat) + 20) := rfl
      rw [e3] at h3
      rw [e4] at h4
      rw [e5] at h5
      injection h3 with h3
      injection h4 with h4
      injection h5 with h5
      subst h3
      subst h4
      subst h5
      rw [show ((0 : Rat) + 7) + ((0 : Rat) + 5) = 12 by norm_num] at v4
      rw [show ((0 : Rat) + 20) - ((0 : Rat) + 5) = 15 by norm_num] at v7
      exact ⟨w, rfl, v4, v7⟩

/-- C5: on a successful export, every item's row carries in column Z (26)
the value `vat_base - kkdf` and in column AB (28) the value
`(vat_base - kkdf) * vat_percent`, where the per-item coerced values are
pinned to the item's fields and `vat_percent` comes from `hs_code_data`
(`0` when absent). -/
theorem c5_vat_derived (tpl : Ws) (data : ExcelData) (ws : Ws)
    (hok : TplMergesOK tpl.merges)
    (hcf26 : Row10ColFree tpl.merges 26) (hcf28 : Row10ColFree tpl.merges 28)
    (hmax : 10 ≤ tpl.maxRow)
    (h : export_excel tpl data = .ok ws) :
    ∀ i (hi : i < data.items.length), ∃ n : ItemNums,
      coerceItem (data.items.get ⟨i, hi⟩) = .ok n ∧
      getFloat (data.items.get ⟨i, hi⟩).vat_base = .ok n.vatBase ∧
      getFloat (data.items.get ⟨i, hi⟩).kkdf = .ok n.kkdf ∧
      (∀ hs, (data.items.get ⟨i, hi⟩).hs_code_data = some hs →
        getFloat hs.vat_percent = .ok n.vatPercent) ∧
      ((data.items.get ⟨i, hi⟩).hs_code_data = none → n.vatPercent = 0) ∧
      ws.cells (10 + i, 26) = some (.jnum (n.vatBase - n.kkdf)) ∧
      ws.cells (10 + i, 28) =
        some (.jnum ((n.vatBase - n.kkdf) * n.vatPercent)) := by
  obtain ⟨wsH, wsS, wsL, hH, hS, hL, rfl⟩ := export_excel_ok_shape tpl data ws h
  obtain ⟨hmer, -, -, -⟩ := preLoop_state tpl data wsH wsS hmax hH hS
  have hfrom : MergesFrom tpl.merges (writeColHeaders wsS).merges := by
    rw [hmer]
    exact mergesFrom_refl tpl.merges
  intro i hi
  obtain ⟨n, hn, hv26⟩ := processItems_cells_rowvals tpl.merges data.items 0
    _ wsL 26 (fun _ n => .jnum (n.vatBase - n.kkdf)) hok hfrom hcf26
    (fun it n => rowVals_split_col26 it n) hL i hi
  obtain ⟨n', hn', hv28⟩ := processItems_cells_rowvals tpl.merges data.items 0
    _ wsL 28 (fun _ n => .jnum ((n.vatBase - n.kkdf) * n.vatPercent)) hok hfrom
    hcf28 (fun it n => rowVals_split_col28 it n) hL i hi
  rw [hn] at hn'
  injection hn' with hnn
  subst hnn
  obtain ⟨-, -, -, -, -, -, -, -, -, hkk, -, -, hvb, hsome, hnone⟩ :=
    coerceItem_ok_fields _ n hn
  have hkeep : ∀ c, c ≤ 28 →
      (scrubAll wsL (10 + data.items.length - 1)).cells (10 + i, c) =
        wsL.cells (10 + i, c) := by
    intro c hc
    apply scrubAll_cells_keep
    · intro hin
      rcases hin with ⟨ha, -, -, -⟩
      omega
    · intro hin
      rcases hin with ⟨-, -, h29, -⟩
      omega
    · intro hin
      rcases hin with ⟨-, -, h31, -⟩
      omega
  refine ⟨n, hn, hvb, hkk,
    (fun hs hhs => (hsome hs hhs).2.2.2.2),
    (fun hno => (hnone hno).2.2.2.2), ?_, ?_⟩
  · rw [hkeep 26 (by omega)]
    rw [show 10 + i = 10 + 0 + i by omega]
    exact hv26
  · rw [hkeep 28 (by omega)]
    rw [show 10 + i = 10 + 0 + i by omega]
    exact hv28

/-- Witness for C5, the spec's Scenario D: `vat_base = 100`, `kkdf = 5`,
`vat_percent = 1/10` give `Z10 = 95` and `AB10 = 9.5`. -/
theorem c5_vat_derived_witness :
    ∃ ws, export_excel tplPlain dataC5 = .ok ws ∧
      ws.cells (10, 26) = some (.jnum 95) ∧
      ws.cells (10, 28) = some (.jnum (19 / 2)) := by
  cases hE : export_excel tplPlain dataC5 with
  | error e =>
      have hok : (export_excel tplPlain dataC5).isOk = true := rfl
      rw [hE] at hok
      exact Bool.noConfusion hok
  | ok w =>
      obtain ⟨n, hn, hvb, hkk, hsome, -, hz, hab⟩ :=
        c5_vat_derived tplPlain dataC5 w
          (fun m hm => absurd hm (List.not_mem_nil m))
          (fun m hm => absurd hm (List.not_mem_nil m))
          (fun m hm => absurd hm (List.not_mem_nil m))
          (by decide) hE 0 (by decide)
      have evb : getFloat ((dataC5.items.get ⟨0, by decide⟩).vat_base) =
          .ok (100 : Rat) := rfl
      have ekk : getFloat ((dataC5.items.get ⟨0, by decide⟩).kkdf) =
          .ok (5 : Rat) := rfl
      rw [evb] at hvb
      rw [ekk] at hkk
      injection hvb with hvb
      injection hkk with hkk
      have hvp := hsome { vat_percent := some (.jnum (1 / 10)) } rfl
      have evp : getFloat (some (JVal.jnum (1 / 10))) = .ok ((1 : Rat) / 10) := rfl
      rw [evp] at hvp
      injection hvp with hvp
      rw [← hvb, ← hkk] at hz
      rw [← hvb, ← hkk, ← hvp] at hab
      have hz' : w.cells (10, 26) = some (.jnum ((100 : Rat) - 5)) := hz
      have hab' : w.cells (10, 28) =
        some (.jnum (((100 : Rat) - 5) * ((1 : Rat) / 10))) := hab
      rw [show (100 : Rat) - 5 = 95 by norm_num] at hz'
      rw [show ((100 : Rat) - 5) * ((1 : Rat) / 10) = 19 / 2 by norm_num] at hab'
      exact ⟨w, rfl, hz', hab'⟩

theorem writeColHeaders_cells_above (ws : Ws) (p : Nat × Nat) (h : 9 < p.1) :
    (writeColHeaders ws).cells p = ws.cells p := by
  unfold writeColHeaders
  exact writeRow_cells_above ws 9 _ p h

set_option maxRecDepth 16384 in
/-- Counterexample to C6 as literally stated: the scrub loops guard every
clearing with `if cell.value:`, so a falsy stored value — here a literal
`0` at `A11`, inside the first scrub region — survives with its value
intact instead of being cleared. -/
theorem c6_scrub_regions_cex :
    ∃ ws, export_excel tplC6 dataC6 = .ok ws ∧
      inReg (10 + dataC6.items.length - 1 + 1) 6000 1 30 11 1 ∧
      ws.cells (11, 1) = some (.jnum 0) ∧ ws.cells (11, 1) ≠ none := by
  cases hE : export_excel tplC6 dataC6 with
  | error e =>
      have hok : (export_excel tplC6 dataC6).isOk = true := rfl
      rw [hE] at hok
      exact Bool.noConfusion hok
  | ok w =>
      have hmap : (export_excel tplC6 dataC6).map (fun x => x.cells (11, 1)) =
          .ok (some (JVal.jnum 0)) := rfl
      rw [hE] at hmap
      have hmap' : Except.ok (w.cells (11, 1)) = .ok (some (JVal.jnum 0)) := hmap
      injection hmap' with hcell
      refine ⟨w, rfl, by decide, hcell, ?_⟩
      rw [hcell]
      exact fun hc => Option.noConfusion hc

/-- C6 (amended): after a successful export no scrub region overlaps a
populated data row; inside each of the three regions every truthy value is
cleared (the `if cell.value:` guard retains falsy stored values — see the
counterexample), every border is reset to the default and every fill to
no-fill, and exactly one always-true conditional-formatting rule is
appended per region, in order. -/
theorem c6_scrub_regions (tpl : Ws) (data : ExcelData) (ws : Ws)
    (hb : Bounded tpl) (hmax : 10 ≤ tpl.maxRow)
    (h : export_excel tpl data = .ok ws) :
    (∀ i c, i < data.items.length → 1 ≤ c → c ≤ 30 →
      ¬ inReg (10 + data.items.length - 1 + 1) 6000 1 30 (10 + i) c ∧
      ¬ inReg 1 7 29 78 (10 + i) c ∧
      ¬ inReg 1 6000 31 78 (10 + i) c) ∧
    (∀ p : Nat × Nat, inReg (10 + data.items.length - 1 + 1) 6000 1 30 p.1 p.2 →
      truthyOpt (ws.cells p) = false ∧ ws.borders p = Bord.empty ∧
      ws.fills p = Fill.noFill) ∧
    (∀ p : Nat × Nat, inReg 1 7 29 78 p.1 p.2 →
      truthyOpt (ws.cells p) = false ∧ ws.borders p = Bord.empty ∧
      ws.fills p = Fill.noFill) ∧
    (∀ p : Nat × Nat, inReg 1 6000 31 78 p.1 p.2 →
      truthyOpt (ws.cells p) = false ∧ ws.borders p = Bord.empty ∧
      ws.fills p = Fill.noFill) ∧
    ws.cfRules = tpl.cfRules ++
      [⟨10 + data.items.length - 1 + 1, 6000, 1, 30, true⟩,
       ⟨1, 7, 29, 78, true⟩, ⟨1, 6000, 31, 78, true⟩] := by
  obtain ⟨wsH, wsS, wsL, hH, hS, hL, rfl⟩ := export_excel_ok_shape tpl data ws h
  obtain ⟨-, -, hbC, hcf⟩ := preLoop_state tpl data wsH wsS hmax hH hS
  have hbL : Bounded wsL := bounded_processItems data.items 0 _ wsL (hbC hb) hL
  refine ⟨?_, ?_, ?_, ?_, ?_⟩
  · intro i c hi hc1 hc2
    refine ⟨?_, ?_, ?_⟩
    · intro hin
      rcases hin with ⟨ha, -, -, -⟩
      omega
    · intro hin
      rcases hin with ⟨-, hr7, -, -⟩
      omega
    · intro hin
      rcases hin with ⟨-, -, h31, -⟩
      omega
  · intro p hin
    refine ⟨scrubAll_cells_reg1_notTruthy wsL _ p hbL hin, ?_, ?_⟩
    · exact (scrubAll_styles_reg1 wsL _ p hbL hin).1
    · exact (scrubAll_styles_reg1 wsL _ p hbL hin).2
  · intro p hin
    refine ⟨scrubAll_cells_reg2_notTruthy wsL _ p hin, ?_, ?_⟩
    · exact (scrubAll_styles_reg2 wsL _ p hin).1
    · exact (scrubAll_styles_reg2 wsL _ p hin).2
  · intro p hin
    refine ⟨scrubAll_cells_reg3_notTruthy wsL _ p hbL hin, ?_, ?_⟩
    · exact (scrubAll_styles_reg3 wsL _ p hbL hin).1
    · exact (scrubAll_styles_reg3 wsL _ p hbL hin).2
  · rw [scrubAll_cfRules, processItems_cfRules data.items 0 _ wsL hL, hcf]

/-- Witness for C6 (amended) on the plain template with one item: the cell
`A11` (in scrub region 1) is left non-truthy with default styles, and
exactly the three always-true rules are registered. -/
theorem c6_scrub_regions_witness :
    ∃ ws, export_excel tplPlain dataC6 = .ok ws ∧
      truthyOpt (ws.cells (11, 1)) = false ∧
      ws.fills (11, 1) = Fill.noFill ∧
      ws.cfRules = [⟨11, 6000, 1, 30, true⟩, ⟨1, 7, 29, 78, true⟩,
        ⟨1, 6000, 31, 78, true⟩] := by
  cases hE : export_excel tplPlain dataC6 with
  | error e =>
      have hok : (export_excel tplPlain dataC6).isOk = true := rfl
      rw [hE] at hok
      exact Bool.noConfusion hok
  | ok w =>
      have hc := c6_scrub_regions tplPlain dataC6 w
        (fun p hp => ⟨rfl, rfl, rfl⟩) (by decide) hE
      have hin : inReg (10 + dataC6.items.length - 1 + 1) 6000 1 30
          ((11 : Nat), (1 : Nat)).1 ((11 : Nat), (1 : Nat)).2 := by decide
      obtain ⟨ht, -, hf⟩ := hc.2.1 (11, 1) hin
      refine ⟨w, rfl, ht, hf, ?_⟩
      rw [hc.2.2.2.2]
      rfl

/-- C7: a successful export certifies that every numeric field of every
item coerced to its declared type (`float`/`int`) — contrapositively, a
present-but-uncoercible value makes the whole generation fail, never a
silent zero (an `Except.error` run produces no artifact, the save at line
281 being unreachable); an absent field coerces to `0` without error, and
an uncoercible present value is exactly an `Except.error`. -/
theorem c7_numeric_coercion (tpl : Ws) (data : ExcelData) (ws : Ws)
    (h : export_excel tpl data = .ok ws) :
    (∀ it ∈ data.items,
      (∃ q, getFloat it.cost = .ok q) ∧
      (∃ z, getInt it.unit_count = .ok z) ∧
      (∃ q, getFloat it.total_value = .ok q) ∧
      (∃ q, getFloat it.transport_share = .ok q) ∧
      (∃ q, getFloat it.insurance_share = .ok q) ∧
      (∃ q, getFloat it.storage_share = .ok q) ∧
      (∃ q, getFloat it.customs_tax = .ok q) ∧
      (∃ q, getFloat it.additional_customs_tax = .ok q) ∧
      (∃ q, getFloat it.kkdf = .ok q) ∧
      (∃ q, getFloat it.vat = .ok q) ∧
      (∃ q, getFloat it.total_tax_usd = .ok q) ∧
      (∃ q, getFloat it.vat_base = .ok q) ∧
      (∀ hs, it.hs_code_data = some hs →
        (∃ q, getFloat hs.customs_tax_percent = .ok q) ∧
        (∃ q, getFloat hs.additional_customs_tax_percent = .ok q) ∧
        (∃ q, getFloat hs.kkdf_percent = .ok q) ∧
        (∃ q, getFloat hs.vat_percent = .ok q))) ∧
    getFloat none = .ok 0 ∧ getInt none = .ok 0 ∧
    (∀ j : JVal, pyFloat j = none →
      getFloat (some j) = .error "could not convert value to float") ∧
    (∀ j : JVal, pyInt j = none →
      getInt (some j) = .error "could not convert value to int") := by
  obtain ⟨wsH, wsS, wsL, hH, hS, hL, rfl⟩ := export_excel_ok_shape tpl data ws h
  refine ⟨?_, rfl, rfl, ?_, ?_⟩
  · intro it hit
    obtain ⟨n, hn⟩ := processItems_ok_coerce data.items 0 _ wsL hL it hit
    obtain ⟨-, hcost, huc, htv, hts, hins, hss, hct, hact, hkk, hvt, httu,
      hvb, hsome, -⟩ := coerceItem_ok_fields it n hn
    refine ⟨⟨n.cost, hcost⟩, ⟨n.unitCount, huc⟩, ⟨n.totalValue, htv⟩,
      ⟨n.transportShare, hts⟩, ⟨n.insuranceShare, hins⟩, ⟨n.storageShare, hss⟩,
      ⟨n.customsTax, hct⟩, ⟨n.addCustomsTax, hact⟩, ⟨n.kkdf, hkk⟩,
      ⟨n.vat, hvt⟩, ⟨n.totalTaxUsd, httu⟩, ⟨n.vatBase, hvb⟩, ?_⟩
    intro hs hhs
    obtain ⟨ha, hb', hc', hd, -⟩ := hsome hs hhs
    exact ⟨⟨n.customsTaxPercent, ha⟩, ⟨n.addCustomsTaxPercent, hb'⟩,
      ⟨n.kkdfPercent, hc'⟩, ⟨n.vatPercentCell, hd⟩⟩
  · intro j hj
    show (match pyFloat j with
      | some q => Except.ok q
      | none => Except.error "could not convert value to float") =
      Except.error "could not convert value to float"
    rw [hj]
  · intro j hj
    show (match pyInt j with
      | some z => Except.ok z
      | none => Except.error "could not convert value to int") =
      Except.error "could not convert value to int"
    rw [hj]

/-- Witness for C7: an export with a coercible item succeeds and certifies
its coercions, while a present `None` is rejected by `float()` as an
error. -/
theorem c7_numeric_coercion_witness :
    ∃ ws, export_excel tplPlain dataC7 = .ok ws ∧
      (∃ q, getFloat itemC7.cost = .ok q) ∧
      getFloat (some .jnull) =
        .error "could not convert value to float" := by
  cases hE : export_excel tplPlain dataC7 with
  | error e =>
      have hok : (export_excel tplPlain dataC7).isOk = true := rfl
      rw [hE] at hok
      exact Bool.noConfusion hok
  | ok w =>
      have hc := c7_numeric_coercion tplPlain dataC7 w hE
      refine ⟨w, rfl, ?_, ?_⟩
      · exact (hc.1 _ (List.mem_cons_self _ _)).1
      · exact hc.2.2.2.1 .jnull rfl

/-- C9: with an empty item list the report has zero data rows — from row 10
down, columns A-AD hold no value — and all eight summary cells `A7`-`H7`
are `0`.  (The template asset being absent from the sources, its shape is
modelled from the spec: body ends at row 10, summary cells are merge-free,
and the body below the header band stores no falsy literal.) -/
theorem c9_empty_items (tpl : Ws) (data : ExcelData) (ws : Ws)
    (hempty : data.items = [])
    (hok : TplMergesOK tpl.merges) (hmax : tpl.maxRow = 10) (hb : Bounded tpl)
    (hfree : ∀ r c, 6 ≤ r → r ≤ 7 → 1 ≤ c → c ≤ 8 →
      MergeFreeCell tpl.merges r c)
    (h10 : ∀ p : Nat × Nat, 10 ≤ p.1 →
      tpl.cells p = none ∨ truthyOpt (tpl.cells p) = true)
    (h : export_excel tpl data = .ok ws) :
    (∀ r c, 10 ≤ r → 1 ≤ c → c ≤ 30 → ws.cells (r, c) = none) ∧
    ws.cells (7, 1) = some (.jnum 0) ∧
    ws.cells (7, 2) = some (.jnum 0) ∧
    ws.cells (7, 3) = some (.jnum 0) ∧
    ws.cells (7, 4) = some (.jnum 0) ∧
    ws.cells (7, 5) = some (.jnum 0) ∧
    ws.cells (7, 6) = some (.jnum 0) ∧
    ws.cells (7, 7) = some (.jnum 0) ∧
    ws.cells (7, 8) = some (.jnum 0) := by
  obtain ⟨t1, t2, t3, t4, t5, t6, h1, h2, h3, h4, h5, h6,
    v1, v2, v3, v4, v5, v6, v7, v8⟩ :=
    export_summary_cells tpl data ws hok (by omega) hfree h
  have hz : ∀ f : Item → Option JVal, sumField data.items f = .ok (0 : Rat) := by
    intro f
    rw [hempty]
    rfl
  rw [hz Item.customs_tax] at h1
  rw [hz Item.additional_customs_tax] at h2
  rw [hz Item.kkdf] at h3
  rw [hz Item.vat] at h4
  rw [hz Item.total_tax_usd] at h5
  rw [hz Item.total_tax_tl] at h6
  injection h1 with h1
  injection h2 with h2
  injection h3 with h3
  injection h4 with h4
  injection h5 with h5
  injection h6 with h6
  subst h1
  subst h2
  subst h3
  subst h4
  subst h5
  subst h6
  rw [show (0 : Rat) + 0 = 0 by norm_num] at v4
  rw [show (0 : Rat) - 0 = 0 by norm_num] at v7
  obtain ⟨wsH, wsS, wsL, hH, hS, hL, rfl⟩ := export_excel_ok_shape tpl data ws h
  obtain ⟨-, -, hbC, -⟩ := preLoop_state tpl data wsH wsS (by omega) hH hS
  rw [hempty] at hL
  have hwsL := processItems_nil 0 _ wsL hL
  obtain ⟨s1, s2, s3, s4, s5, s6, -, -, -, -, -, -, hwsS⟩ :=
    writeSummaryBlock_ok_shape wsH data.items wsS hS
  obtain ⟨lh, hwsH, hrows⟩ := writeHeaderBlock_ok_shape tpl data.calculation wsH hH
  have htpl : ∀ p : Nat × Nat, 10 ≤ p.1 →
      (writeColHeaders wsS).cells p = tpl.cells p := by
    intro p hp
    rw [writeColHeaders_cells_above wsS p (by omega), hwsS]
    rw [writeCells_cells_above wsH (summaryL s1 s2 s3 s4 s5 s6) p ?h67]
    case h67 =>
      intro e he
      simp only [summaryL, List.mem_cons, List.not_mem_nil, or_false] at he
      rcases he with rfl | rfl | rfl | rfl | rfl | rfl | rfl | rfl |
        rfl | rfl | rfl | rfl | rfl | rfl | rfl | rfl <;>
        exact lt_of_lt_of_le (by norm_num) hp
    rw [hwsH]
    exact writeCells_cells_above tpl lh p
      (by intro e he
          rcases hrows e he with h2 | h2 <;> omega)
  refine ⟨?_, v1, v2, v3, v4, v5, v6, v7, v8⟩
  intro r c hr hc1 hc2
  rw [hwsL]
  by_cases h6k : r ≤ 6000
  · apply scrubAll_cells_reg1_none _ _ (r, c) (hbC hb)
    · rw [htpl (r, c) (by exact hr)]
      exact h10 (r, c) hr
    · refine ⟨?_, by omega, by omega, by omega⟩
      rw [hempty]
      exact hr
  · have hkeep := scrubAll_cells_keep (writeColHeaders wsS)
      (10 + data.items.length - 1) (r, c)
      (fun hin => absurd hin.2.1 (by omega))
      (fun hin => absurd hin.2.1 (by omega))
      (fun hin => absurd hin.2.1 (by omega))
    rw [hkeep, htpl (r, c) (by exact hr)]
    exact (hb (r, c) (by rw [hmax]; omega)).1

/-- Witness for C9: the empty-items export over the plain template leaves
`A10` valueless and puts `0` in `A7`. -/
theorem c9_empty_items_witness :
    ∃ ws, export_excel tplPlain dataC9 = .ok ws ∧
      ws.cells (10, 1) = none ∧ ws.cells (7, 1) = some (.jnum 0) := by
  cases hE : export_excel tplPlain dataC9 with
  | error e =>
      have hok : (export_excel tplPlain dataC9).isOk = true := rfl
      rw [hE] at hok
      exact Bool.noConfusion hok
  | ok w =>
      have hc := c9_empty_items tplPlain dataC9 w rfl
        (fun m hm => absurd hm (List.not_mem_nil m)) rfl
        (fun p hp => ⟨rfl, rfl, rfl⟩)
        (fun r c hr1 hr2 hc1 hc2 m hm => absurd hm (List.not_mem_nil m))
        (fun p hp => Or.inl rfl) hE
      exact ⟨w, rfl, hc.1 10 1 (by decide) (by decide) (by decide), hc.2.1⟩
